import Mathlib

/-!
Verification development for the hook lifecycle orchestrator
(`lib/app/private/loadHooks.js`).

The JavaScript source is shallowly embedded:

* JSON-like configuration values become the mutual inductive `JVal`/`JFields`
  (a JS object is an association list of string keys with unique keys; the
  `wfKeys` predicate captures that uniqueness invariant of real JS objects).
* The deep defaults merge (`defaultsDeep`, from the external `merge-defaults`
  dependency) is modelled from the spec, see its doc comment.
* `applyDefaults`, `prepareHook`, the timeout guard of `loadHook` and the
  `async.series` pipeline of `initializeHooks` are translated from the source
  into pure state-passing functions; JS exceptions (`TypeError`,
  `process.exit`) become an explicit `Crash` component of the state.
-/

set_option autoImplicit false

namespace LoadHooks

mutual
/-- JSON-like values: the shape of `sails.config` and of hook `defaults`
objects.  `obj` carries its fields as an association list. -/
inductive JVal where
  | null : JVal
  | bool (b : Bool) : JVal
  | num (n : Int) : JVal
  | str (s : String) : JVal
  | obj (fields : JFields) : JVal
  deriving DecidableEq, Repr

inductive JFields where
  | nil : JFields
  | cons (k : String) (v : JVal) (rest : JFields) : JFields
  deriving DecidableEq, Repr
end

namespace JFields

/-- First value bound to key `k`, like JS property lookup (JS objects have
unique keys, so first = only). -/
def lookup : JFields → String → Option JVal
  | nil, _ => none
  | cons k v rest, key => if k = key then some v else rest.lookup key

/-- Key membership. -/
def hasKey (f : JFields) (k : String) : Bool :=
  (f.lookup k).isSome

/-- JS property assignment `o[k] = v`: overwrite in place if present,
append otherwise. -/
def set : JFields → String → JVal → JFields
  | nil, key, v => cons key v nil
  | cons k w rest, key, v =>
      if k = key then cons k v rest else cons k w (rest.set key v)

/-- JS `delete o[k]`. -/
def del : JFields → String → JFields
  | nil, _ => nil
  | cons k w rest, key =>
      if k = key then rest.del key else cons k w (rest.del key)

/-- The keys, in order. -/
def keys : JFields → List String
  | nil => []
  | cons k _ rest => k :: rest.keys

/-- Concatenation of field lists. -/
def append : JFields → JFields → JFields
  | nil, b => b
  | cons k v rest, b => cons k v (append rest b)

end JFields

/-- JS truthiness of a value; an absent property (`none`) is `undefined`,
hence falsy. -/
def jTruthy : Option JVal → Bool
  | none => false
  | some JVal.null => false
  | some (JVal.bool b) => b
  | some (JVal.num n) => n != 0
  | some (JVal.str s) => s ≠ ""
  | some (JVal.obj _) => true

/-- Source fields whose key is absent from the destination, in order. -/
def extraFields (d : JFields) : JFields → JFields
  | JFields.nil => JFields.nil
  | JFields.cons k v rest =>
      if d.hasKey k then extraFields d rest
      else JFields.cons k v (extraFields d rest)

mutual
/-- Modelled from the spec: `defaultsDeep` (the `merge-defaults` dependency,
not part of src/).  "Deep-merges the object into shared configuration such
that any key already present in shared configuration — at any depth — is left
untouched; only missing keys are filled in."  When both sides bind a key to
an object the merge recurses; otherwise the destination value wins; keys only
present in the source are appended. -/
def defaultsDeep : JVal → JVal → JVal
  | JVal.obj d, JVal.obj s => JVal.obj ((mergeFields d s).append (extraFields d s))
  | d, _ => d

/-- Destination fields, each deep-merged with the source's binding for the
same key when there is one. -/
def mergeFields : JFields → JFields → JFields
  | JFields.nil, _ => JFields.nil
  | JFields.cons k v rest, s =>
      JFields.cons k
        (match s.lookup k with
         | some sv => defaultsDeep v sv
         | none => v)
        (mergeFields rest s)
end

/-- The source's binding for key `k` folded onto a destination value `v`:
what `mergeFields` does to one destination entry. -/
def mImage (s : JFields) (k : String) (v : JVal) : JVal :=
  match s.lookup k with
  | some sv => defaultsDeep v sv
  | none => v

/-- Entries of a field list, as a `List` for reuse of list lemmas. -/
def JFields.toList : JFields → List (String × JVal)
  | JFields.nil => []
  | JFields.cons k v rest => (k, v) :: rest.toList

mutual
/-- Real JS objects have unique keys; `wfKeys` states that invariant,
recursively at every depth. -/
def JVal.wfKeys : JVal → Bool
  | JVal.obj f => f.wfKeysF
  | _ => true

/-- Field lists with pairwise-distinct keys and well-formed values. -/
def JFields.wfKeysF : JFields → Bool
  | JFields.nil => true
  | JFields.cons k v rest => !rest.hasKey k && v.wfKeys && rest.wfKeysF
end

/-- Is the value an object? -/
def JVal.isObj : JVal → Bool
  | JVal.obj _ => true
  | _ => false

/-- Follow a path of keys down nested objects. -/
def getPath : JVal → List String → Option JVal
  | v, [] => some v
  | JVal.obj f, k :: rest =>
      (match f.lookup k with
       | some v => getPath v rest
       | none => none)
  | _, _ :: _ => none

namespace JFields

theorem append_nil : (f : JFields) → f.append JFields.nil = f
  | JFields.nil => rfl
  | JFields.cons k v rest => by simp [JFields.append, append_nil rest]

theorem toList_append : (a b : JFields) →
    (a.append b).toList = a.toList ++ b.toList
  | JFields.nil, b => rfl
  | JFields.cons k v rest, b => by
      simp [JFields.append, JFields.toList, toList_append rest b]

theorem lookup_append : (a b : JFields) → (k : String) →
    (a.append b).lookup k =
      match a.lookup k with
      | some v => some v
      | none => b.lookup k
  | JFields.nil, b, k => rfl
  | JFields.cons k0 v rest, b, k => by
      by_cases h : k0 = k <;>
        simp [JFields.append, JFields.lookup, h, lookup_append rest b k]

theorem lookup_self (k : String) (v : JVal) (rest : JFields) :
    (JFields.cons k v rest).lookup k = some v := by
  simp [JFields.lookup]

theorem hasKey_cons (k0 : String) (v : JVal) (rest : JFields) (k : String) :
    (JFields.cons k0 v rest).hasKey k =
      (decide (k0 = k) || rest.hasKey k) := by
  by_cases h : k0 = k <;> simp [JFields.hasKey, JFields.lookup, h]

theorem hasKey_of_mem : (f : JFields) → (k : String) → (v : JVal) →
    (k, v) ∈ f.toList → f.hasKey k = true
  | JFields.nil, k, v, h => by simp [JFields.toList] at h
  | JFields.cons k0 v0 rest, k, v, h => by
      simp only [JFields.toList, List.mem_cons] at h
      rcases h with h | h
      · cases h
        simp [JFields.hasKey, JFields.lookup]
      · rw [hasKey_cons]
        simp [hasKey_of_mem rest k v h]

theorem mem_of_hasKey : (f : JFields) → (k : String) → f.hasKey k = true →
    ∃ v, (k, v) ∈ f.toList
  | JFields.nil, k, h => by simp [JFields.hasKey, JFields.lookup] at h
  | JFields.cons k0 v0 rest, k, h => by
      by_cases hk : k0 = k
      · subst hk; exact ⟨v0, by simp [JFields.toList]⟩
      · rw [hasKey_cons] at h
        simp [hk] at h
        obtain ⟨v, hv⟩ := mem_of_hasKey rest k h
        exact ⟨v, by simp [JFields.toList, hv]⟩

theorem lookup_eq_of_mem_wf : (f : JFields) → f.wfKeysF = true →
    (k : String) → (v : JVal) → (k, v) ∈ f.toList → f.lookup k = some v
  | JFields.nil, _, k, v, h => by simp [JFields.toList] at h
  | JFields.cons k0 v0 rest, hwf, k, v, h => by
      simp only [JFields.wfKeysF, Bool.and_eq_true, Bool.not_eq_true'] at hwf
      simp only [JFields.toList, List.mem_cons] at h
      rcases h with h | h
      · cases h
        simp [JFields.lookup]
      · have hk : k0 ≠ k := by
          intro he
          subst he
          have := hasKey_of_mem rest k0 v h
          rw [this] at hwf
          simp at hwf
        simp [JFields.lookup, hk, lookup_eq_of_mem_wf rest hwf.2 k v h]

theorem wf_of_lookup : (f : JFields) → f.wfKeysF = true →
    (k : String) → (v : JVal) → f.lookup k = some v → v.wfKeys = true
  | JFields.nil, _, k, v, h => by simp [JFields.lookup] at h
  | JFields.cons k0 v0 rest, hwf, k, v, h => by
      simp only [JFields.wfKeysF, Bool.and_eq_true, Bool.not_eq_true'] at hwf
      by_cases hk : k0 = k
      · simp [JFields.lookup, hk] at h
        exact h ▸ hwf.1.2
      · simp [JFields.lookup, hk] at h
        exact wf_of_lookup rest hwf.2 k v h

theorem wf_of_mem (f : JFields) (hwf : f.wfKeysF = true)
    (k : String) (v : JVal) (h : (k, v) ∈ f.toList) :
    v.wfKeys = true :=
  wf_of_lookup f hwf k v (lookup_eq_of_mem_wf f hwf k v h)

theorem sizeOf_of_mem : (f : JFields) → (k : String) → (v : JVal) →
    (k, v) ∈ f.toList → sizeOf v < sizeOf f
  | JFields.nil, k, v, h => by simp [JFields.toList] at h
  | JFields.cons k0 v0 rest, k, v, h => by
      simp only [JFields.toList, List.mem_cons] at h
      rcases h with h | h
      · cases h
        simp
        omega
      · have := sizeOf_of_mem rest k v h
        simp
        omega

end JFields

theorem lookup_mergeFields : (f s : JFields) → (k : String) →
    (mergeFields f s).lookup k = (f.lookup k).map (mImage s k)
  | JFields.nil, s, k => rfl
  | JFields.cons k0 v rest, s, k => by
      by_cases h : k0 = k <;>
        simp [mergeFields, JFields.lookup, h,
          lookup_mergeFields rest s k, mImage]

theorem lookup_extraFields (d : JFields) : (s : JFields) → (k : String) →
    (extraFields d s).lookup k =
      if d.hasKey k then none else s.lookup k
  | JFields.nil, k => by simp [extraFields, JFields.lookup]
  | JFields.cons k0 v rest, k => by
      by_cases hd : d.hasKey k0
      · by_cases h : k0 = k
        · subst h
          simp [extraFields, hd, lookup_extraFields d rest k0]
        · simp [extraFields, hd, lookup_extraFields d rest k,
            JFields.lookup, h]
      · by_cases h : k0 = k
        · subst h
          simp [extraFields, hd, JFields.lookup]
        · simp [extraFields, hd, JFields.lookup, h,
            lookup_extraFields d rest k]

/-- Lookup in the merged object, in terms of the two inputs. -/
theorem lookup_merged (d s : JFields) (k : String) :
    ((mergeFields d s).append (extraFields d s)).lookup k =
      match d.lookup k with
      | some v => some (mImage s k v)
      | none => s.lookup k := by
  rw [JFields.lookup_append, lookup_mergeFields, lookup_extraFields]
  cases h : d.lookup k with
  | some v => simp
  | none =>
      have : d.hasKey k = false := by simp [JFields.hasKey, h]
      simp [this]

theorem mergeFields_eq_self : (f : JFields) → (s : JFields) →
    (∀ k v, (k, v) ∈ f.toList → mImage s k v = v) → mergeFields f s = f
  | JFields.nil, s, _ => rfl
  | JFields.cons k0 v0 rest, s, h => by
      have hhead : mImage s k0 v0 = v0 :=
        h k0 v0 (by simp [JFields.toList])
      have htail : mergeFields rest s = rest :=
        mergeFields_eq_self rest s
          (fun k v hm => h k v (by simp [JFields.toList, hm]))
      show JFields.cons k0 (mImage s k0 v0) (mergeFields rest s) = _
      rw [hhead, htail]

theorem extraFields_eq_nil (d : JFields) : (s : JFields) →
    (∀ k, s.hasKey k = true → d.hasKey k = true) →
    extraFields d s = JFields.nil
  | JFields.nil, _ => rfl
  | JFields.cons k0 v0 rest, h => by
      have hk0 : d.hasKey k0 = true := by
        apply h
        simp [JFields.hasKey, JFields.lookup]
      have htail : extraFields d rest = JFields.nil := by
        apply extraFields_eq_nil d rest
        intro k hk
        apply h
        rw [JFields.hasKey_cons]
        simp [hk]
      simp [extraFields, hk0, htail]

theorem defaultsDeep_nonobj_right (c d : JVal) (h : d.isObj = false) :
    defaultsDeep c d = c := by
  cases c <;> cases d <;> simp_all [defaultsDeep, JVal.isObj]

theorem defaultsDeep_nonobj_left (c d : JVal) (h : c.isObj = false) :
    defaultsDeep c d = c := by
  cases c <;> cases d <;> simp_all [defaultsDeep, JVal.isObj]

/-- Merging a well-formed object into itself changes nothing. -/
theorem defaultsDeep_self : (v : JVal) → v.wfKeys = true →
    defaultsDeep v v = v
  | JVal.obj f, h => by
      have hwf : f.wfKeysF = true := h
      have hextra : extraFields f f = JFields.nil :=
        extraFields_eq_nil f f (fun _ hk => hk)
      have hmerge : mergeFields f f = f := by
        apply mergeFields_eq_self
        intro k w hmw
        have hl : f.lookup k = some w :=
          JFields.lookup_eq_of_mem_wf f hwf k w hmw
        have hw : w.wfKeys = true := JFields.wf_of_mem f hwf k w hmw
        have : defaultsDeep w w = w := defaultsDeep_self w hw
        simp [mImage, hl, this]
      show JVal.obj ((mergeFields f f).append (extraFields f f)) = _
      rw [hextra, hmerge, JFields.append_nil]
  | JVal.null, _ => rfl
  | JVal.bool b, _ => rfl
  | JVal.num n, _ => rfl
  | JVal.str s, _ => rfl
termination_by v _ => sizeOf v
decreasing_by
  have := JFields.sizeOf_of_mem f k w hmw
  simp
  omega

theorem mem_mergeFields_toList : (f s : JFields) → (k : String) →
    (w : JVal) → (k, w) ∈ (mergeFields f s).toList →
    ∃ v, (k, v) ∈ f.toList ∧ w = mImage s k v
  | JFields.nil, s, k, w, h => by simp [mergeFields, JFields.toList] at h
  | JFields.cons k0 v0 rest, s, k, w, h => by
      have h' : (k, w) = (k0, mImage s k0 v0) ∨
          (k, w) ∈ (mergeFields rest s).toList := by
        simpa [mergeFields, JFields.toList, mImage] using h
      rcases h' with h' | h'
      · injection h' with hk hw
        subst hk
        exact ⟨v0, by simp [JFields.toList], hw⟩
      · obtain ⟨v, hv, hw⟩ := mem_mergeFields_toList rest s k w h'
        exact ⟨v, by simp [JFields.toList, hv], hw⟩

theorem mem_extraFields_toList (d : JFields) : (s : JFields) →
    (k : String) → (v : JVal) → (k, v) ∈ (extraFields d s).toList →
    (k, v) ∈ s.toList ∧ d.hasKey k = false
  | JFields.nil, k, v, h => by simp [extraFields, JFields.toList] at h
  | JFields.cons k0 v0 rest, k, v, h => by
      by_cases hd : d.hasKey k0
      · have h' : (k, v) ∈ (extraFields d rest).toList := by
          simpa [extraFields, hd] using h
        obtain ⟨hm, hk⟩ := mem_extraFields_toList d rest k v h'
        exact ⟨by simp [JFields.toList, hm], hk⟩
      · have h' : (k, v) = (k0, v0) ∨ (k, v) ∈ (extraFields d rest).toList := by
          simpa [extraFields, hd, JFields.toList] using h
        rcases h' with h' | h'
        · injection h' with hk hv
          subst hk
          subst hv
          exact ⟨by simp [JFields.toList], by simpa using hd⟩
        · obtain ⟨hm, hk⟩ := mem_extraFields_toList d rest k v h'
          exact ⟨by simp [JFields.toList, hm], hk⟩

/-- Merging twice when one side is not an object is trivially idempotent. -/
theorem defaultsDeep_idem_aux (c d : JVal)
    (h : c.isObj = false ∨ d.isObj = false) :
    defaultsDeep (defaultsDeep c d) d = defaultsDeep c d := by
  rcases h with h | h
  · rw [defaultsDeep_nonobj_left c d h, defaultsDeep_nonobj_left c d h]
  · rw [defaultsDeep_nonobj_right c d h, defaultsDeep_nonobj_right c d h]

/-- Merging the same well-formed defaults object twice is the same as
merging it once. -/
theorem defaultsDeep_idem : (c d : JVal) → d.wfKeys = true →
    defaultsDeep (defaultsDeep c d) d = defaultsDeep c d
  | JVal.null, d, _ => defaultsDeep_idem_aux _ d (Or.inl rfl)
  | JVal.bool b, d, _ => defaultsDeep_idem_aux _ d (Or.inl rfl)
  | JVal.num n, d, _ => defaultsDeep_idem_aux _ d (Or.inl rfl)
  | JVal.str s, d, _ => defaultsDeep_idem_aux _ d (Or.inl rfl)
  | JVal.obj dc, JVal.null, _ => defaultsDeep_idem_aux _ _ (Or.inr rfl)
  | JVal.obj dc, JVal.bool b, _ => defaultsDeep_idem_aux _ _ (Or.inr rfl)
  | JVal.obj dc, JVal.num n, _ => defaultsDeep_idem_aux _ _ (Or.inr rfl)
  | JVal.obj dc, JVal.str s, _ => defaultsDeep_idem_aux _ _ (Or.inr rfl)
  | JVal.obj dc, JVal.obj ds, hd => by
      have hwf : ds.wfKeysF = true := hd
      show defaultsDeep
          (JVal.obj ((mergeFields dc ds).append (extraFields dc ds)))
          (JVal.obj ds) = _
      have hextra :
          extraFields ((mergeFields dc ds).append (extraFields dc ds)) ds =
            JFields.nil := by
        apply extraFields_eq_nil
        intro k hk
        obtain ⟨sv, hsv⟩ := JFields.mem_of_hasKey ds k hk
        have hlk : ds.lookup k = some sv :=
          JFields.lookup_eq_of_mem_wf ds hwf k sv hsv
        rw [JFields.hasKey, lookup_merged]
        cases hdc : dc.lookup k <;> simp [hlk]
      have hmerge :
          mergeFields ((mergeFields dc ds).append (extraFields dc ds)) ds =
            (mergeFields dc ds).append (extraFields dc ds) := by
        apply mergeFields_eq_self
        intro k w hw
        rw [JFields.toList_append, List.mem_append] at hw
        rcases hw with hw | hw
        · obtain ⟨v, hv, hweq⟩ := mem_mergeFields_toList dc ds k w hw
          subst hweq
          cases hls : ds.lookup k with
          | none => simp [mImage, hls]
          | some sv =>
              have hsv : sv.wfKeys = true :=
                JFields.wf_of_lookup ds hwf k sv hls
              simp only [mImage, hls]
              exact defaultsDeep_idem v sv hsv
        · obtain ⟨hm, hk⟩ := mem_extraFields_toList dc ds k w hw
          have hlk : ds.lookup k = some w :=
            JFields.lookup_eq_of_mem_wf ds hwf k w hm
          have hwwf : w.wfKeys = true := JFields.wf_of_mem ds hwf k w hm
          simp only [mImage, hlk]
          exact defaultsDeep_self w hwwf
      show JVal.obj
          ((mergeFields ((mergeFields dc ds).append (extraFields dc ds)) ds).append
            (extraFields ((mergeFields dc ds).append (extraFields dc ds)) ds)) = _
      rw [hextra, hmerge, JFields.append_nil]
      rfl
termination_by c _ _ => sizeOf c
decreasing_by
  have := JFields.sizeOf_of_mem dc k v hv
  simp
  omega

/-- A non-object value reachable in the destination is still there, with the
same value, after the merge: defaults never overwrite an existing leaf. -/
theorem getPath_leaf_preserved : (p : List String) → (c d v : JVal) →
    getPath c p = some v → v.isObj = false →
    getPath (defaultsDeep c d) p = some v
  | [], c, d, v, h, hleaf => by
      simp [getPath] at h
      subst h
      rw [defaultsDeep_nonobj_left c d hleaf]
      cases c <;> rfl
  | k :: rest, c, d, v, h, hleaf => by
      cases c with
      | obj f =>
          cases hu : f.lookup k with
          | none => simp [getPath, hu] at h
          | some u =>
              have h' : getPath u rest = some v := by
                simpa [getPath, hu] using h
              cases d with
              | obj s =>
                  show getPath (JVal.obj
                    ((mergeFields f s).append (extraFields f s))) (k :: rest) =
                      some v
                  rw [getPath, lookup_merged, hu]
                  cases hls : s.lookup k with
                  | none => simpa [mImage, hls] using h'
                  | some sv =>
                      simp only [mImage, hls]
                      exact getPath_leaf_preserved rest u sv v h' hleaf
              | null => exact h
              | bool b => exact h
              | num n => exact h
              | str s => exact h
      | null => simp [getPath] at h
      | bool b => simp [getPath] at h
      | num n => simp [getPath] at h
      | str s => simp [getPath] at h

/-- Every path present in the destination is still present after the merge. -/
theorem getPath_present_preserved : (p : List String) → (c d : JVal) →
    (getPath c p).isSome = true →
    (getPath (defaultsDeep c d) p).isSome = true
  | [], c, d, _ => by
      cases c <;> cases d <;> simp [defaultsDeep, getPath]
  | k :: rest, c, d, h => by
      cases c with
      | obj f =>
          cases hu : f.lookup k with
          | none => simp [getPath, hu] at h
          | some u =>
              have h' : (getPath u rest).isSome = true := by
                simpa [getPath, hu] using h
              cases d with
              | obj s =>
                  show (getPath (JVal.obj
                    ((mergeFields f s).append (extraFields f s)))
                      (k :: rest)).isSome = true
                  rw [getPath, lookup_merged, hu]
                  cases hls : s.lookup k with
                  | none => simpa [mImage, hls] using h'
                  | some sv =>
                      simp only [mImage, hls]
                      exact getPath_present_preserved rest u sv h'
              | null => exact h
              | bool b => exact h
              | num n => exact h
              | str s => exact h
      | null => simp [getPath] at h
      | bool b => simp [getPath] at h
      | num n => simp [getPath] at h
      | str s => simp [getPath] at h

/-- Shared configuration of the spec example: the object with a = 1. -/
def exampleConfig : JVal :=
  JVal.obj (JFields.cons "a" (JVal.num 1) JFields.nil)

/-- Hook defaults of the spec example: the object with a = 2 and b = 3. -/
def exampleDefaults : JVal :=
  JVal.obj (JFields.cons "a" (JVal.num 2)
    (JFields.cons "b" (JVal.num 3) JFields.nil))

/-- Expected merge result of the spec example: a = 1, b = 3. -/
def exampleMerged : JVal :=
  JVal.obj (JFields.cons "a" (JVal.num 1)
    (JFields.cons "b" (JVal.num 3) JFields.nil))

/-- C6: the defaults merge into shared configuration never overwrites a key
already present at any depth (a present path stays present, and a present
non-object value is kept verbatim; merging defaults with a = 2, b = 3 into a
configuration with a = 1 yields a = 1, b = 3), and the merge is idempotent:
merging the same (unique-keyed, as all JS objects are) defaults object twice
yields the same configuration as merging it once. -/
theorem c6_merge_preserves_and_idem :
    (∀ c d p v, getPath c p = some v → v.isObj = false →
        getPath (defaultsDeep c d) p = some v) ∧
    (∀ c d p, (getPath c p).isSome = true →
        (getPath (defaultsDeep c d) p).isSome = true) ∧
    defaultsDeep exampleConfig exampleDefaults = exampleMerged ∧
    (∀ c d, d.wfKeys = true →
        defaultsDeep (defaultsDeep c d) d = defaultsDeep c d) :=
  ⟨fun c d p v h hleaf => getPath_leaf_preserved p c d v h hleaf,
   fun c d p h => getPath_present_preserved p c d h,
   rfl,
   fun c d hd => defaultsDeep_idem c d hd⟩

/-- C6 witness: the preservation and idempotence statements applied to the
spec's own concrete example. -/
theorem c6_merge_preserves_and_idem_witness :
    getPath (defaultsDeep exampleConfig exampleDefaults) ["a"] =
      some (JVal.num 1) ∧
    defaultsDeep (defaultsDeep exampleConfig exampleDefaults)
      exampleDefaults = defaultsDeep exampleConfig exampleDefaults :=
  ⟨c6_merge_preserves_and_idem.1 exampleConfig exampleDefaults ["a"]
      (JVal.num 1) rfl rfl,
   c6_merge_preserves_and_idem.2.2.2 exampleConfig exampleDefaults rfl⟩

/-! ## applyDefaults (loadHooks.js lines 63-76) -/

/-- A JS exception or process termination aborting the run. -/
inductive Crash where
  | typeError : Crash
  | processExit : Crash
  deriving DecidableEq, Repr

/-- The `defaults` member of a hook descriptor: absent (`undefined`), a plain
object, or a function of the shared configuration.  A JS function value can
in principle carry extra properties; as everywhere in sails, descriptor
defaults functions carry none, so reading `__configKey__` off a function
yields `undefined`. -/
inductive DefVal where
  | dnone : DefVal
  | dobj (o : JFields) : DefVal
  | dfn (f : JVal → JVal) : DefVal

/-- Lines 66-68: `(_.isFunction(hook.defaults) ? hook.defaults(sails.config)
: hook.defaults) || {}`. -/
def resolveDv (dv : DefVal) (config : JVal) : JVal :=
  match dv with
  | DefVal.dnone => JVal.obj JFields.nil
  | DefVal.dobj o => JVal.obj o
  | DefVal.dfn f =>
      let r := f config
      if jTruthy (some r) then r else JVal.obj JFields.nil

/-- Lines 71-72 applied to a field list: `o[configKey] = o.__configKey__;
delete o.__configKey__`. -/
def rewriteCK (configKey : String) (o : JFields) : JFields :=
  (o.set configKey ((o.lookup "__configKey__").getD JVal.null)).del
    "__configKey__"

/-- Translation of `applyDefaults` (lines 64-76), for a hook whose resolved
`configKey` is `configKey` and whose `defaults` member is `dv`; `config` is
`sails.config`.  Returns the new `sails.config` together with the hook's
`defaults` member after the call (the rewrite of lines 71-72 mutates it in
place), or the JS exception.  Faithful points: the line-70 check and the
lines-71-72 rewrite read and mutate `hook.defaults` itself, not the resolved
object of line 66; when `hook.defaults` is a plain object the two are the
same object (aliasing), so the merge of line 75 sees the rewrite; when it is
a function, the function's `__configKey__` property is `undefined`, so no
rewrite happens; when it is absent, line 70 throws a `TypeError`. -/
def applyDefaultsH (configKey : String) (dv : DefVal) (config : JVal) :
    Except Crash (JVal × DefVal) :=
  match dv with
  | DefVal.dnone => Except.error Crash.typeError
  | DefVal.dfn f =>
      Except.ok (defaultsDeep config (resolveDv (DefVal.dfn f) config),
        DefVal.dfn f)
  | DefVal.dobj o =>
      if jTruthy (o.lookup "__configKey__") = true ∧ configKey ≠ "" then
        Except.ok (defaultsDeep config (JVal.obj (rewriteCK configKey o)),
          DefVal.dobj (rewriteCK configKey o))
      else
        Except.ok (defaultsDeep config (JVal.obj o), DefVal.dobj o)

/-- Modelled from the spec: the behavior C5 claims for `applyDefaults` —
resolve `defaults` to a concrete object first, then rewrite the placeholder
key of that resolved object, then merge.  Used only for comparison with the
source's `applyDefaultsH`. -/
def applyDefaultsSpec (configKey : String) (dv : DefVal) (config : JVal) :
    JVal :=
  let resolved := resolveDv dv config
  let rewritten :=
    match resolved with
    | JVal.obj o =>
        if jTruthy (o.lookup "__configKey__") = true ∧ configKey ≠ "" then
          JVal.obj (rewriteCK configKey o)
        else JVal.obj o
    | v => v
  defaultsDeep config rewritten

/-- New configuration produced by a non-crashing `applyDefaults` call. -/
def excConfig (e : Except Crash (JVal × DefVal)) : Option JVal :=
  match e with
  | Except.ok (c, _) => some c
  | Except.error _ => none

/-- Function-valued defaults of the C5 counterexample: return an object
whose only key is the `__configKey__` placeholder. -/
def c5Fn : JVal → JVal := fun _ =>
  JVal.obj (JFields.cons "__configKey__"
    (JVal.obj (JFields.cons "port" (JVal.num 7) JFields.nil)) JFields.nil)

/-- C5 counterexample: for a hook with `configKey` "foo" whose `defaults` is
a function returning an object with a `__configKey__` key, the source does
not rewrite the resolved object (the line-70 check reads `hook.defaults`,
the function, whose `__configKey__` property is undefined): the placeholder
key is merged into `sails.config` verbatim, contradicting the claimed
resolve-then-rewrite-then-merge behavior. -/
theorem c5_counterexample :
    ¬ (excConfig (applyDefaultsH "foo" (DefVal.dfn c5Fn)
        (JVal.obj JFields.nil)) =
      some (applyDefaultsSpec "foo" (DefVal.dfn c5Fn)
        (JVal.obj JFields.nil))) := by
  decide

/-- C5 (amended): `applyDefaults` resolves `defaults` to a concrete object
(invoking it with the current shared configuration if it is a function,
using it as-is if it is an object), but the placeholder rewrite is checked
on and applied to `hook.defaults` itself rather than the resolved object.
Hence the claimed behavior holds exactly for object-valued defaults (where
the resolved object aliases `hook.defaults`); for function-valued defaults
the resolved object is merged with no rewrite, and for absent defaults the
rewrite check throws a `TypeError`. -/
theorem c5_applyDefaults_amended :
    (∀ ck o config, excConfig (applyDefaultsH ck (DefVal.dobj o) config) =
        some (applyDefaultsSpec ck (DefVal.dobj o) config)) ∧
    (∀ ck f config, excConfig (applyDefaultsH ck (DefVal.dfn f) config) =
        some (defaultsDeep config (resolveDv (DefVal.dfn f) config))) ∧
    (∀ ck config, applyDefaultsH ck DefVal.dnone config =
        Except.error Crash.typeError) := by
  refine ⟨fun ck o config => ?_, fun ck f config => rfl, fun ck config => rfl⟩
  by_cases h : jTruthy (o.lookup "__configKey__") = true ∧ ck ≠ "" <;>
    simp [applyDefaultsH, applyDefaultsSpec, resolveDv, excConfig, h]

/-! ## Timeout guard (loadHooks.js lines 78-116) -/

/-- The parts of `sails.config` read by line 81.  `sections` lists the keys
of `sails.config` bound to truthy objects, each with its `_hookTimeout`
member if present (`some 0` models a `_hookTimeout` that exists but is
falsy); `hookTimeout` is `sails.config.hookTimeout`.  Keys are unique, as in
any JS object. -/
structure TimeoutConfig where
  sections : List (String × Option Nat)
  hookTimeout : Option Nat

/-- Line 81: `(sails.config[hooks[id].configKey || id] &&
sails.config[hooks[id].configKey || id]._hookTimeout) ||
sails.config.hookTimeout || 20000`, with JS truthiness (a `_hookTimeout` or
`hookTimeout` of 0 is falsy and falls through). -/
def timeoutInterval (cfg : TimeoutConfig) (configKey id : String) : Nat :=
  let k := if configKey = "" then id else configKey
  let fromSection : Option Nat :=
    match List.lookup k cfg.sections with
    | some (some n) => if n = 0 then none else some n
    | _ => none
  match fromSection with
  | some n => n
  | none =>
      match cfg.hookTimeout with
      | some n => if n = 0 then 20000 else n
      | none => 20000

/-- Modelled from the spec's words for C8: the claimed resolution order —
`sharedConfig[hook.configKey]._hookTimeout` if it exists, else
`sharedConfig.hookTimeout` if it exists, else 20000.  Used only for
comparison with the source's `timeoutInterval`. -/
def timeoutIntervalSpec (cfg : TimeoutConfig) (configKey : String) : Nat :=
  match List.lookup configKey cfg.sections with
  | some (some n) => n
  | _ =>
      match cfg.hookTimeout with
      | some n => n
      | none => 20000

/-- One hook's load behavior in a load stage: when (if ever) its `load`
invokes its completion callback, and whether it passes an error. -/
structure HookSpec where
  id : String
  configKey : String
  completesAt : Option Nat
  loadErr : Bool

/-- The observable behavior of `loadHook`, in order and with times: each
entry is a callback invocation towards the orchestrator or an event-bus
emission. -/
inductive LogEntry where
  | timeoutErr (id : String) (interval : Nat) (t : Nat) : LogEntry
  | errorEmit (id : String) (t : Nat) : LogEntry
  | loadedEmit (id : String) (t : Nat) : LogEntry
  | cbOk (id : String) (t : Nat) : LogEntry
  | cbErr (id : String) (t : Nat) : LogEntry
  deriving DecidableEq, Repr

/-- A primitive occurrence on the timeline: a deadline timer firing
(`isTimer`) or a load completion arriving (with its error flag).  `interval`
is the timer's configured interval, reported in the timeout error. -/
structure SimEvent where
  time : Nat
  isTimer : Bool
  id : String
  errFlag : Bool
  interval : Nat
  deriving DecidableEq, Repr

/-- Timeline order: earlier first; at equal times timers fire first (the
theorems below only use runs without ties). -/
def evLE (a b : SimEvent) : Bool :=
  a.time < b.time || (a.time == b.time && (a.isTimer || !b.isTimer))

/-- Insert into a sorted event list. -/
def insertEv (e : SimEvent) : List SimEvent → List SimEvent
  | [] => [e]
  | e2 :: rest => if evLE e e2 then e :: e2 :: rest else e2 :: insertEv e rest

/-- Sort events into timeline order. -/
def sortEvents : List SimEvent → List SimEvent
  | [] => []
  | e :: rest => insertEv e (sortEvents rest)

/-- Lines 83-94: one deadline timer per hook, except `userhooks`, with the
line-81 interval; all are pushed into `hookTimeouts` when the stage starts. -/
def timerEvents (cfg : TimeoutConfig) : List HookSpec → List SimEvent
  | [] => []
  | h :: rest =>
      if h.id = "userhooks" then timerEvents cfg rest
      else
        { time := timeoutInterval cfg h.configKey h.id, isTimer := true,
          id := h.id, errFlag := false,
          interval := timeoutInterval cfg h.configKey h.id } ::
          timerEvents cfg rest

/-- The load completion signals that will arrive. -/
def completionEvents : List HookSpec → List SimEvent
  | [] => []
  | h :: rest =>
      match h.completesAt with
      | some t =>
          { time := t, isTimer := false, id := h.id, errFlag := h.loadErr,
            interval := 0 } :: completionEvents rest
      | none => completionEvents rest

/-- Ids owning a pending timer at stage start (every hook but `userhooks`). -/
def timerIds : List HookSpec → List String
  | [] => []
  | h :: rest =>
      if h.id = "userhooks" then timerIds rest else h.id :: timerIds rest

/-- Lines 84-115 driven along the timeline.  `active` is the set of pending
timers.  A timer that fires while pending invokes the orchestrator callback
with the `E_HOOK_TIMEOUT` error (lines 84-92) — and cancels nothing else.  A
load completion first clears the hook's own timer (lines 96-98); on error it
clears every tracked timer, emits the error event and invokes the callback
with the error (lines 99-108); on success it emits the loaded event and
invokes the callback (lines 110-114). -/
def runEvents : List SimEvent → List String → List LogEntry
  | [], _ => []
  | e :: rest, active =>
      if e.isTimer then
        if e.id ∈ active then
          LogEntry.timeoutErr e.id e.interval e.time ::
            runEvents rest (active.erase e.id)
        else runEvents rest active
      else
        if e.errFlag then
          LogEntry.errorEmit e.id e.time :: LogEntry.cbErr e.id e.time ::
            runEvents rest []
        else
          LogEntry.loadedEmit e.id e.time :: LogEntry.cbOk e.id e.time ::
            runEvents rest (active.erase e.id)

/-- A concurrent load stage: all `loadHook` calls start at time 0 (their
timers all pending), then timers and completions race. -/
def runLoadStage (cfg : TimeoutConfig) (specs : List HookSpec) :
    List LogEntry :=
  runEvents (sortEvents (timerEvents cfg specs ++ completionEvents specs))
    (timerIds specs)

/-- Number of orchestrator-callback invocations for a hook (timeout error,
load error, or success). -/
def cbCount (i : String) (log : List LogEntry) : Nat :=
  log.countP fun e =>
    match e with
    | LogEntry.timeoutErr j _ _ => j == i
    | LogEntry.cbOk j _ => j == i
    | LogEntry.cbErr j _ => j == i
    | _ => false

/-- Number of timeout errors produced for a hook. -/
def timeoutCount (i : String) (log : List LogEntry) : Nat :=
  log.countP fun e =>
    match e with
    | LogEntry.timeoutErr j _ _ => j == i
    | _ => false

/-- Whether a loaded event for the hook was ever emitted. -/
def loadedEmitted (i : String) (log : List LogEntry) : Bool :=
  log.any fun e =>
    match e with
    | LogEntry.loadedEmit j _ => j == i
    | _ => false

/-- Configuration of the C1 scenario: config section `foo` with
`_hookTimeout` 50. -/
def c1Cfg : TimeoutConfig := ⟨[("foo", some 50)], none⟩

/-- The C1 scenario: hook `foo` whose load completes successfully at time
60, after its deadline of 50. -/
def c1Specs : List HookSpec := [⟨"foo", "foo", some 60, false⟩]

/-- C1 counterexample: the claim states that a completion signal arriving
after the deadline is ignored — no `hook:foo:loaded` event and no second
callback invocation.  In the code nothing disarms the load continuation
after the timeout fires: the loaded event is emitted and the callback runs
a second time, so the claimed property is false at this input. -/
theorem c1_counterexample :
    ¬ (timeoutCount "foo" (runLoadStage c1Cfg c1Specs) = 1 ∧
       loadedEmitted "foo" (runLoadStage c1Cfg c1Specs) = false ∧
       cbCount "foo" (runLoadStage c1Cfg c1Specs) = 1) := by
  decide

/-- C1 (amended): for a hook other than `userhooks` whose load does not
signal completion before the configured deadline, the timeout guard invokes
the orchestrator callback with the timeout error (carrying the hook id and
interval).  If the completion never arrives, that is the only callback and
no loaded event is emitted; but a completion arriving after the deadline is
NOT ignored: its continuation still runs, emitting `hook:<id>:loaded` and
invoking the callback a second time. -/
theorem c1_timeout_guard_amended (id ck : String) (cfg : TimeoutConfig)
    (t : Nat) (e : Bool) (hid : id ≠ "userhooks")
    (ht : timeoutInterval cfg ck id < t) :
    runLoadStage cfg [⟨id, ck, none, e⟩] =
      [LogEntry.timeoutErr id (timeoutInterval cfg ck id)
        (timeoutInterval cfg ck id)] ∧
    runLoadStage cfg [⟨id, ck, some t, false⟩] =
      [LogEntry.timeoutErr id (timeoutInterval cfg ck id)
        (timeoutInterval cfg ck id),
       LogEntry.loadedEmit id t, LogEntry.cbOk id t] := by
  constructor
  · simp [runLoadStage, timerEvents, completionEvents, timerIds, hid,
      sortEvents, insertEv, runEvents]
  · simp [runLoadStage, timerEvents, completionEvents, timerIds, hid,
      sortEvents, insertEv, evLE, ht, runEvents, List.erase]

/-- C1 witness: the amended statement at hook `foo`, interval 50, late
completion at 60. -/
theorem c1_timeout_guard_amended_witness :
    runLoadStage c1Cfg [⟨"foo", "foo", none, false⟩] =
      [LogEntry.timeoutErr "foo" 50 50] ∧
    runLoadStage c1Cfg [⟨"foo", "foo", some 60, false⟩] =
      [LogEntry.timeoutErr "foo" 50 50, LogEntry.loadedEmit "foo" 60,
       LogEntry.cbOk "foo" 60] :=
  c1_timeout_guard_amended "foo" "foo" c1Cfg 60 false (by decide) (by decide)

/-- Configuration of the C3 scenarios: sections `a` and `b` with
`_hookTimeout` 50 and 100. -/
def c3Cfg : TimeoutConfig := ⟨[("a", some 50), ("b", some 100)], none⟩

/-- The C3 counterexample scenario: neither hook's load ever completes. -/
def c3Specs : List HookSpec :=
  [⟨"a", "a", none, false⟩, ⟨"b", "b", none, false⟩]

/-- C3 counterexample: hook `a` fails by timeout at 50 while `b`'s timer is
pending; the claim says every tracked timer is then cancelled, so no
`HookTimeoutError` for `b` may follow.  But the timer callback of lines
84-92 cancels nothing, so `b`'s timeout error is still produced at 100. -/
theorem c3_counterexample :
    ¬ (LogEntry.timeoutErr "a" 50 50 ∈ runLoadStage c3Cfg c3Specs →
       ¬ (LogEntry.timeoutErr "b" 100 100 ∈ runLoadStage c3Cfg c3Specs)) := by
  decide

/-- Log suffix after the first callback-reported load failure. -/
def afterFirstCbErr : List LogEntry → List LogEntry
  | [] => []
  | LogEntry.cbErr _ _ :: rest => rest
  | _ :: rest => afterFirstCbErr rest

/-- Whether a log entry is a timeout error. -/
def isTimeoutEntry : LogEntry → Bool
  | LogEntry.timeoutErr _ _ _ => true
  | _ => false

/-- Whether any timeout error occurs in the log. -/
def hasTimeoutEntry (log : List LogEntry) : Bool :=
  log.any isTimeoutEntry

theorem hasTimeoutEntry_runEvents_nil :
    (evts : List SimEvent) → hasTimeoutEntry (runEvents evts []) = false
  | [] => rfl
  | e :: rest => by
      have ih := hasTimeoutEntry_runEvents_nil rest
      simp only [hasTimeoutEntry] at ih ⊢
      by_cases hT : e.isTimer <;>
        by_cases hE : e.errFlag <;>
          simp [runEvents, hT, hE, isTimeoutEntry, List.erase_nil, ih]

theorem afterFirstCbErr_no_timeout : (evts : List SimEvent) →
    (active : List String) →
    hasTimeoutEntry (afterFirstCbErr (runEvents evts active)) = false
  | [], _ => rfl
  | e :: rest, active => by
      by_cases hT : e.isTimer
      · by_cases hm : e.id ∈ active
        · have ih := afterFirstCbErr_no_timeout rest (active.erase e.id)
          simp only [hasTimeoutEntry] at ih ⊢
          simp [runEvents, hT, hm, afterFirstCbErr, ih]
        · have ih := afterFirstCbErr_no_timeout rest active
          simp only [hasTimeoutEntry] at ih ⊢
          simp [runEvents, hT, hm, ih]
      · by_cases hE : e.errFlag
        · have ih := hasTimeoutEntry_runEvents_nil rest
          simp only [hasTimeoutEntry] at ih ⊢
          simp [runEvents, hT, hE, afterFirstCbErr, ih]
        · have ih := afterFirstCbErr_no_timeout rest (active.erase e.id)
          simp only [hasTimeoutEntry] at ih ⊢
          simp [runEvents, hT, hE, afterFirstCbErr, ih]

/-- The C3 amended-claim scenario: hook `a`'s load reports an error at time
30, before either deadline; `b` never completes. -/
def c3ErrSpecs : List HookSpec :=
  [⟨"a", "a", some 30, true⟩, ⟨"b", "b", none, false⟩]

/-- C3 (amended): when a hook's load reports failure through its completion
callback, every tracked timer is cancelled at that moment, so no
`HookTimeoutError` (for any hook) is produced after that failure — in the
concrete scenario, `a` failing at 30 leaves `b` with no timeout error ever.
But a failure that IS the timeout (the deadline firing) cancels nothing, so
a sibling's timer can still fire (see the counterexample). -/
theorem c3_failure_cleanup_amended :
    (∀ cfg specs,
      hasTimeoutEntry (afterFirstCbErr (runLoadStage cfg specs)) = false) ∧
    runLoadStage c3Cfg c3ErrSpecs =
      [LogEntry.errorEmit "a" 30, LogEntry.cbErr "a" 30] :=
  ⟨fun cfg specs => afterFirstCbErr_no_timeout _ _, by decide⟩

/-- Timer events carry the id of a hook other than `userhooks`. -/
theorem timerEvents_id (cfg : TimeoutConfig) : (specs : List HookSpec) →
    (e : SimEvent) → e ∈ timerEvents cfg specs → e.id ≠ "userhooks"
  | [], e, h => by simp [timerEvents] at h
  | s :: rest, e, h => by
      by_cases hu : s.id = "userhooks"
      · exact timerEvents_id cfg rest e (by simpa [timerEvents, hu] using h)
      · have h' : e = ⟨timeoutInterval cfg s.configKey s.id, true, s.id,
            false, timeoutInterval cfg s.configKey s.id⟩ ∨
            e ∈ timerEvents cfg rest := by
          simpa [timerEvents, hu] using h
        rcases h' with h' | h'
        · subst h'
          simpa using hu
        · exact timerEvents_id cfg rest e h'

/-- Completion events are not timer events. -/
theorem completionEvents_not_timer : (specs : List HookSpec) →
    (e : SimEvent) → e ∈ completionEvents specs → e.isTimer = false
  | [], e, h => by simp [completionEvents] at h
  | s :: rest, e, h => by
      cases hc : s.completesAt with
      | none =>
          exact completionEvents_not_timer rest e
            (by simpa [completionEvents, hc] using h)
      | some t =>
          have h' : e = ⟨t, false, s.id, s.loadErr, 0⟩ ∨
              e ∈ completionEvents rest := by
            simpa [completionEvents, hc] using h
          rcases h' with h' | h'
          · subst h'
            rfl
          · exact completionEvents_not_timer rest e h'

theorem mem_insertEv (e a : SimEvent) : (l : List SimEvent) →
    a ∈ insertEv e l → a = e ∨ a ∈ l
  | [], h => by simpa [insertEv] using h
  | e2 :: rest, h => by
      by_cases hle : evLE e e2
      · simpa [insertEv, hle] using h
      · have h' : a = e2 ∨ a ∈ insertEv e rest := by
          simpa [insertEv, hle] using h
        rcases h' with h' | h'
        · exact Or.inr (by simp [h'])
        · rcases mem_insertEv e a rest h' with h'' | h''
          · exact Or.inl h''
          · exact Or.inr (by simp [h''])

theorem mem_sortEvents (a : SimEvent) : (l : List SimEvent) →
    a ∈ sortEvents l → a ∈ l
  | [], h => by simp [sortEvents] at h
  | e :: rest, h => by
      rcases mem_insertEv e a (sortEvents rest) h with h' | h'
      · simp [h']
      · simp [mem_sortEvents a rest h']

/-- A timeout error in the simulated log comes from a timer event. -/
theorem timeoutErr_from_timer (i : String) (iv t : Nat) :
    (evts : List SimEvent) → (active : List String) →
    LogEntry.timeoutErr i iv t ∈ runEvents evts active →
    ∃ e, e ∈ evts ∧ e.isTimer = true ∧ e.id = i
  | [], active, h => by simp [runEvents] at h
  | e :: rest, active, h => by
      by_cases hT : e.isTimer
      · by_cases hm : e.id ∈ active
        · have h' : LogEntry.timeoutErr i iv t =
              LogEntry.timeoutErr e.id e.interval e.time ∨
              LogEntry.timeoutErr i iv t ∈
                runEvents rest (active.erase e.id) := by
            simpa [runEvents, hT, hm] using h
          rcases h' with h' | h'
          · injection h' with h1 h2 h3
            exact ⟨e, by simp, hT, h1.symm⟩
          · obtain ⟨e2, he2, hti, hid⟩ :=
              timeoutErr_from_timer i iv t rest (active.erase e.id) h'
            exact ⟨e2, by simp [he2], hti, hid⟩
        · obtain ⟨e2, he2, hti, hid⟩ := timeoutErr_from_timer i iv t rest
            active (by simpa [runEvents, hT, hm] using h)
          exact ⟨e2, by simp [he2], hti, hid⟩
      · by_cases hE : e.errFlag
        · obtain ⟨e2, he2, hti, hid⟩ := timeoutErr_from_timer i iv t rest []
            (by simpa [runEvents, hT, hE] using h)
          exact ⟨e2, by simp [he2], hti, hid⟩
        · obtain ⟨e2, he2, hti, hid⟩ := timeoutErr_from_timer i iv t rest
            (active.erase e.id) (by simpa [runEvents, hT, hE] using h)
          exact ⟨e2, by simp [he2], hti, hid⟩

/-- C9: no deadline timer is ever started for the bootstrap hook
`userhooks` (line 83), so no `HookTimeoutError` is ever produced for it,
whatever its load does and whatever else runs. -/
theorem c9_userhooks_never_times_out (cfg : TimeoutConfig)
    (specs : List HookSpec) :
    timeoutCount "userhooks" (runLoadStage cfg specs) = 0 := by
  rw [timeoutCount, List.countP_eq_zero]
  intro a ha
  cases a with
  | timeoutErr j iv t =>
      simp only [decide_eq_true_eq, beq_iff_eq]
      intro hj
      obtain ⟨e, he, hti, hid⟩ :=
        timeoutErr_from_timer j iv t _ _ ha
      have he' := mem_sortEvents e _ he
      rw [List.mem_append] at he'
      rcases he' with he' | he'
      · exact timerEvents_id cfg specs e he' (hid.trans hj)
      · rw [completionEvents_not_timer specs e he'] at hti
        exact Bool.false_ne_true hti
  | errorEmit j t => simp
  | loadedEmit j t => simp
  | cbOk j t => simp
  | cbErr j t => simp

/-- Configuration of the C8 counterexample: section `foo` exists and its
`_hookTimeout` exists with value 0. -/
def c8Cfg : TimeoutConfig := ⟨[("foo", some 0)], none⟩

/-- C8 counterexample: with `_hookTimeout` present but 0 (falsy in JS), the
code's `||` chain skips it and resolves to 20000, while the claimed
existence-based order resolves to 0. -/
theorem c8_counterexample :
    ¬ (timeoutInterval c8Cfg "foo" "foo" = timeoutIntervalSpec c8Cfg "foo") := by
  decide

/-- C8 (amended): the timeout interval is resolved in the claimed order —
`sharedConfig[configKey]._hookTimeout`, else `sharedConfig.hookTimeout`,
else 20000 — but a configured value is used only when truthy (nonzero):
whenever the configured values are nonzero, source and claimed resolution
agree exactly. -/
theorem c8_interval_resolution_amended (cfg : TimeoutConfig)
    (ck id : String) (hck : ck ≠ "")
    (hsec : ∀ n, List.lookup ck cfg.sections = some (some n) → n ≠ 0)
    (htop : cfg.hookTimeout ≠ some 0) :
    timeoutInterval cfg ck id = timeoutIntervalSpec cfg ck := by
  rw [timeoutInterval, timeoutIntervalSpec]
  simp only [hck, if_neg]
  cases hl : List.lookup ck cfg.sections with
  | none =>
      cases hh : cfg.hookTimeout with
      | none => simp [hck, hl, hh]
      | some n =>
          have : n ≠ 0 := by
            intro h0
            exact htop (by rw [hh, h0])
          simp [hck, hl, hh, this]
  | some o =>
      cases o with
      | none =>
          cases hh : cfg.hookTimeout with
          | none => simp [hck, hl, hh]
          | some n =>
              have : n ≠ 0 := by
                intro h0
                exact htop (by rw [hh, h0])
              simp [hck, hl, hh, this]
      | some n =>
          have : n ≠ 0 := hsec n hl
          simp [hck, hl, this]

/-- C8 witness: the amended resolution applied to a configuration with a
nonzero `_hookTimeout` of 50. -/
theorem c8_interval_resolution_amended_witness :
    timeoutInterval ⟨[("foo", some 50)], none⟩ "foo" "x" =
      timeoutIntervalSpec ⟨[("foo", some 50)], none⟩ "foo" :=
  c8_interval_resolution_amended ⟨[("foo", some 50)], none⟩ "foo" "x"
    (by decide)
    (fun n hn => by
      have : some (some 50) = some (some n) := by
        simpa [List.lookup] using hn
      injection this with h1
      injection h1 with h2
      omega)
    (by decide)

/-! ## The initializeHooks pipeline (loadHooks.js lines 19-214) -/

/-- A hook descriptor as returned by a factory: its `defaults` member,
whether `configure()` returns normally, and whether `load` signals success.
Load timing is abstracted in this trace model (a load completes according
to `loadOk`); the timer race is modelled separately above. -/
structure Descriptor where
  defaults : DefVal
  configureOk : Bool
  loadOk : Bool

/-- A factory (in JS a function of `sails` returning the descriptor; the
`sails` argument plays no role in the control flow modelled here), together
with the `configKey` property optionally set on the function itself, which
line 57 reads. -/
structure Factory where
  configKeyProp : Option String
  descriptor : Descriptor

/-- A raw registry value before preparation.  `malformed` stands for any
truthy value that is neither a function nor a plain object (line 42 then
calls `process.exit(1)`). -/
inductive RawDef where
  | disabled : RawDef
  | disabledStr : RawDef
  | factory (f : Factory) : RawDef
  | folder (index : Option Factory) : RawDef
  | malformed : RawDef

/-- An instantiated Hook (line 60).  Being a `hook` entry is what the spec
calls state Prepared. -/
structure HookEnt where
  identity : String
  configKey : String
  defaults : DefVal
  configureOk : Bool
  loadOk : Bool

/-- A registry slot. -/
inductive RegEntry where
  | raw (d : RawDef) : RegEntry
  | hook (h : HookEnt) : RegEntry

/-- First binding of a key (JS property lookup; registries have unique
keys). -/
def rlookup : List (String × RegEntry) → String → Option RegEntry
  | [], _ => none
  | (k, v) :: rest, key => if k = key then some v else rlookup rest key

/-- JS assignment `hooks[id] = v`: replace the binding, or append. -/
def rupdate : List (String × RegEntry) → String → RegEntry →
    List (String × RegEntry)
  | [], key, v => [(key, v)]
  | (k, w) :: rest, key, v =>
      if k = key then (k, v) :: rest else (k, w) :: rupdate rest key v

/-- JS `delete hooks[id]` (registries have unique keys, so removing every
binding of the key coincides with deleting the one JS property). -/
def rdelete : List (String × RegEntry) → String → List (String × RegEntry)
  | [], _ => []
  | (k, w) :: rest, key =>
      if k = key then rdelete rest key else (k, w) :: rdelete rest key

/-- JS truthiness of a registry read: absent and `false` are falsy;
everything else here (the string "false", functions, objects, Hook
instances) is truthy. -/
def entryTruthy : Option RegEntry → Bool
  | none => false
  | some (RegEntry.raw RawDef.disabled) => false
  | some _ => true

/-- Is the entry the literal `false`? (line 26, first and third disjunct.) -/
def isFalseEntry : Option RegEntry → Bool
  | some (RegEntry.raw RawDef.disabled) => true
  | _ => false

/-- Is the entry the literal string "false"? (line 26, second disjunct.) -/
def isFalseStrEntry : Option RegEntry → Bool
  | some (RegEntry.raw RawDef.disabledStr) => true
  | _ => false

/-- `id.split('.')[0]` of line 26: the part before the first dot (the whole
id when it has no dot). -/
def nsHead (id : String) : String :=
  String.mk (id.toList.takeWhile (fun c => c ≠ '.'))

/-- `id.toLowerCase()` of line 52. -/
def lowerStr (s : String) : String :=
  String.mk (s.data.map Char.toLower)

/-- Trace of the observable steps of one orchestration run. -/
inductive TEvent where
  | prepared (id : String) : TEvent
  | configErrorReported : TEvent
  | applyDefaultsCalled (id : String) : TEvent
  | defaultsApplied (id : String) : TEvent
  | configured (id : String) : TEvent
  | loadStarted (id : String) : TEvent
  | loadedEvt (id : String) : TEvent
  | errorEvt (id : String) : TEvent
  | loadFinished (id : String) : TEvent
  | controllersRemoved : TEvent
  deriving DecidableEq, Repr

/-- The message of line 33. -/
def invalidConfigMsg : String :=
  "Invalid configuration:: Cannot use the userconfig hook without the moduleloader hook enabled!"

/-- The evolving state of one `initializeHooks` run: the registry, the
shared `sails.config`, the trace, the invocations of the caller's callback
(line 33 calls it directly; `hooksReady` of line 210 calls it at the end),
the first error reported into the `async.series` chain, and an uncaught JS
exception or `process.exit` if one occurred (which aborts everything
after it). -/
structure PState where
  hooks : List (String × RegEntry)
  config : JVal
  trace : List TEvent
  finalCb : List (Option String)
  seriesErr : Option String
  crash : Option Crash

/-- Lines 48-60: instantiate the Hook — `identity` is the lowercased id
(line 52), `configKey` is the factory's own truthy `configKey` property or
the identity (line 57). -/
def mkHookEnt (id : String) (f : Factory) : HookEnt :=
  let identity := lowerStr id
  ⟨identity,
   (match f.configKeyProp with
    | some c => if c = "" then identity else c
    | none => identity),
   f.descriptor.defaults, f.descriptor.configureOk, f.descriptor.loadOk⟩

/-- Lines 21-61 (`prepareHook`).  Order of checks as in the source: the
disable-deletion of lines 25-29 (note the namespace-head lookup reads the
registry at call time), the userconfig/moduleloader validation of lines
31-34 (which invokes the caller's callback directly and returns — execution
of the calling task continues!), the folder-to-index resolution of lines
36-40, the `process.exit(1)` of lines 42-46 for non-functions, and the
instantiation of lines 48-60 (`identity` is the lowercased id, `configKey`
is the factory's own truthy `configKey` property or the identity). -/
def prepareHook (st : PState) (id : String) : PState :=
  if st.crash.isSome then st else
  let proto := rlookup st.hooks id
  if isFalseEntry proto || isFalseStrEntry proto ||
      isFalseEntry (rlookup st.hooks (nsHead id)) then
    { st with hooks := rdelete st.hooks id }
  else if entryTruthy (rlookup st.hooks "userconfig") &&
      !entryTruthy (rlookup st.hooks "moduleloader") then
    { st with finalCb := st.finalCb ++ [some invalidConfigMsg],
              trace := st.trace ++ [TEvent.configErrorReported] }
  else
    let eff : Option Factory :=
      match proto with
      | some (RegEntry.raw (RawDef.factory f)) => some f
      | some (RegEntry.raw (RawDef.folder idx)) => idx
      | _ => none
    match eff with
    | none => { st with crash := some Crash.processExit }
    | some f =>
        { st with
            hooks := rupdate st.hooks id (RegEntry.hook (mkHookEnt id f)),
            trace := st.trace ++ [TEvent.prepared id] }

/-- Lines 64-76 invoked on a registry entry (`applyDefaults(hooks[id])`).
On anything that is not a prepared Hook — a deleted entry (`undefined`), a
raw factory, a string — reading or dereferencing `defaults` throws a
`TypeError` (for `undefined` at line 66, otherwise at line 70, since only
Hook instances carry a `defaults` member). -/
def applyDefaultsP (st : PState) (id : String) : PState :=
  if st.crash.isSome then st else
  let st1 := { st with trace := st.trace ++ [TEvent.applyDefaultsCalled id] }
  match rlookup st1.hooks id with
  | some (RegEntry.hook h) =>
      match applyDefaultsH h.configKey h.defaults st1.config with
      | Except.ok (cfg, dv) =>
          { st1 with
              config := cfg,
              hooks := rupdate st1.hooks id (RegEntry.hook
                ⟨h.identity, h.configKey, dv, h.configureOk, h.loadOk⟩),
              trace := st1.trace ++ [TEvent.defaultsApplied id] }
      | Except.error c => { st1 with crash := some c }
  | _ => { st1 with crash := some Crash.typeError }

/-- `hooks[id].configure()`.  In the bootstrap tasks (lines 128, 139, 151)
a throw is uncaught; in the configure stage (lines 188-199) it is caught
and reported as the stage error. -/
def configureP (st : PState) (id : String) (catching : Bool) : PState :=
  if st.crash.isSome then st else
  match rlookup st.hooks id with
  | some (RegEntry.hook h) =>
      if h.configureOk then
        { st with trace := st.trace ++ [TEvent.configured id] }
      else if catching then
        { st with seriesErr :=
            match st.seriesErr with
            | some e => some e
            | none => some ("configure failed: " ++ id) }
      else { st with crash := some Crash.typeError }
  | _ => { st with crash := some Crash.typeError }

/-- Lines 78-116 in the trace model: start the load, and according to the
hook's behavior either emit the loaded event and invoke the callback, or
emit the error event and report the error (which becomes the series
result).  Timers are modelled separately above. -/
def loadHookP (st : PState) (id : String) : PState :=
  if st.crash.isSome then st else
  match rlookup st.hooks id with
  | some (RegEntry.hook h) =>
      let st1 := { st with trace := st.trace ++ [TEvent.loadStarted id] }
      if h.loadOk then
        { st1 with trace := st1.trace ++
            [TEvent.loadedEvt id, TEvent.loadFinished id] }
      else
        { st1 with
            trace := st1.trace ++ [TEvent.errorEvt id],
            seriesErr :=
              match st1.seriesErr with
              | some e => some e
              | none => some ("load failed: " ++ id) }
  | _ => { st with crash := some Crash.typeError }

/-- One bootstrap task (lines 122-130, 133-141, 145-153): skip when the
entry is falsy, otherwise prepare, apply defaults, configure and load in
sequence.  A pending series error or crash skips the task. -/
def bootstrapTask (st : PState) (id : String) : PState :=
  if st.crash.isSome || st.seriesErr.isSome then st else
  if !entryTruthy (rlookup st.hooks id) then st else
  loadHookP (configureP (applyDefaultsP (prepareHook st id) id) id false) id

/-- Lines 155-166: drop the reserved `controllers` id if present. -/
def validateTask (st : PState) : PState :=
  if st.crash.isSome || st.seriesErr.isSome then st else
  if entryTruthy (rlookup st.hooks "controllers") then
    { st with hooks := rdelete st.hooks "controllers",
              trace := st.trace ++ [TEvent.controllersRemoved] }
  else st

/-- `_.without(_.keys(hooks), 'userconfig', 'moduleloader', 'userhooks')`
(lines 170, 179, 189, 203). -/
def otherIds (hooks : List (String × RegEntry)) : List String :=
  (hooks.map Prod.fst).filter
    (fun i => i ≠ "userconfig" && i ≠ "moduleloader" && i ≠ "userhooks")

/-- Run one per-hook stage function over the stage's id list.  The
iteratees of `async.each` are launched in order and each of the modelled
bodies is synchronous; a crash (synchronous JS exception) stops everything
(each stage function checks it).  After a reported series error the
remaining already-launched iteratees are irrelevant to the claims and are
not modelled further. -/
def runStage (f : PState → String → PState) : PState → List String → PState
  | st, [] => st
  | st, id :: rest => runStage f (f st id) rest

/-- A stage function only acts when no series error is pending. -/
def guardSeries (f : PState → String → PState) (st : PState) (id : String) :
    PState :=
  if st.seriesErr.isSome then st else f st id

/-- Line 210: `hooksReady` hands the series result to the caller — unless
an uncaught exception already aborted the run. -/
def finalize (st : PState) : PState :=
  if st.crash.isSome then st
  else { st with finalCb := st.finalCb ++ [st.seriesErr] }

/-- Lines 169-175: prepare every remaining id. -/
def stagePrepare (st : PState) : PState :=
  runStage (guardSeries prepareHook) st (otherIds st.hooks)

/-- Lines 178-185: apply defaults for every remaining id. -/
def stageDefaults (st : PState) : PState :=
  runStage (guardSeries applyDefaultsP) st (otherIds st.hooks)

/-- Lines 188-199: configure every remaining hook (errors caught). -/
def stageConfigure (st : PState) : PState :=
  runStage (guardSeries (fun s i => configureP s i true)) st
    (otherIds st.hooks)

/-- Lines 202-207: load every remaining hook. -/
def stageLoad (st : PState) : PState :=
  runStage (guardSeries loadHookP) st (otherIds st.hooks)

/-- The whole `initializeHooks` run (lines 118-213): the three bootstrap
tasks in order, the validate task, then the prepare, defaults, configure
and load stages over the remaining ids, then `hooksReady`. -/
def initializeHooksRun (reg : List (String × RegEntry)) (config : JVal) :
    PState :=
  finalize (stageLoad (stageConfigure (stageDefaults (stagePrepare
    (validateTask (bootstrapTask (bootstrapTask (bootstrapTask
      ⟨reg, config, [], [], none, none⟩
      "moduleloader") "userconfig") "userhooks"))))))

/-! ### Registry lemmas -/

theorem rlookup_rupdate_self : (m : List (String × RegEntry)) →
    (k : String) → (v : RegEntry) → rlookup (rupdate m k v) k = some v
  | [], k, v => by simp [rupdate, rlookup]
  | (k0, w) :: rest, k, v => by
      by_cases h : k0 = k <;>
        simp [rupdate, rlookup, h, rlookup_rupdate_self rest k v]

theorem rlookup_rupdate_ne : (m : List (String × RegEntry)) →
    (k x : String) → (v : RegEntry) → x ≠ k →
    rlookup (rupdate m k v) x = rlookup m x
  | [], k, x, v, hx => by simp [rupdate, rlookup, Ne.symm hx]
  | (k0, w) :: rest, k, x, v, hx => by
      by_cases h : k0 = k
      · subst h
        simp [rupdate, rlookup, Ne.symm hx]
      · simp [rupdate, rlookup, h, rlookup_rupdate_ne rest k x v hx]

theorem rlookup_rdelete_self : (m : List (String × RegEntry)) →
    (k : String) → rlookup (rdelete m k) k = none
  | [], k => rfl
  | (k0, w) :: rest, k => by
      by_cases h : k0 = k <;>
        simp [rdelete, rlookup, h, rlookup_rdelete_self rest k]

theorem rlookup_rdelete_ne : (m : List (String × RegEntry)) →
    (k x : String) → x ≠ k → rlookup (rdelete m k) x = rlookup m x
  | [], k, x, hx => rfl
  | (k0, w) :: rest, k, x, hx => by
      by_cases h : k0 = k
      · subst h
        simp [rdelete, rlookup, Ne.symm hx, rlookup_rdelete_ne rest k0 x hx]
      · simp [rdelete, rlookup, h, rlookup_rdelete_ne rest k x hx]

theorem rlookup_none_not_key : (m : List (String × RegEntry)) →
    (x : String) → rlookup m x = none → x ∉ m.map Prod.fst
  | [], x, _ => by simp
  | (k0, w) :: rest, x, h => by
      by_cases hk : k0 = x
      · simp [rlookup, hk] at h
      · rw [rlookup, if_neg hk] at h
        simp [Ne.symm hk, rlookup_none_not_key rest x h]

theorem key_of_rlookup_some : (m : List (String × RegEntry)) →
    (x : String) → (v : RegEntry) → rlookup m x = some v →
    x ∈ m.map Prod.fst
  | [], x, v, h => by simp [rlookup] at h
  | (k0, w) :: rest, x, v, h => by
      by_cases hk : k0 = x
      · simp [hk]
      · rw [rlookup, if_neg hk] at h
        simp [key_of_rlookup_some rest x v h]

/-- Membership in a stage's id list. -/
theorem mem_otherIds (hooks : List (String × RegEntry)) (x : String)
    (hm : x ∈ hooks.map Prod.fst) (h1 : x ≠ "userconfig")
    (h2 : x ≠ "moduleloader") (h3 : x ≠ "userhooks") : x ∈ otherIds hooks := by
  simp [otherIds, List.mem_filter, hm, h1, h2, h3]

theorem not_mem_otherIds (hooks : List (String × RegEntry)) (x : String)
    (hm : x ∉ hooks.map Prod.fst) : x ∉ otherIds hooks := by
  intro hx
  exact hm (List.mem_of_mem_filter hx)

/-! ### Skip and monotonicity lemmas -/

theorem prepareHook_crash (st : PState) (id : String)
    (h : st.crash.isSome) : prepareHook st id = st := by
  simp [prepareHook, h]

theorem applyDefaultsP_crash (st : PState) (id : String)
    (h : st.crash.isSome) : applyDefaultsP st id = st := by
  simp [applyDefaultsP, h]

theorem configureP_crash (st : PState) (id : String) (c : Bool)
    (h : st.crash.isSome) : configureP st id c = st := by
  simp [configureP, h]

theorem loadHookP_crash (st : PState) (id : String)
    (h : st.crash.isSome) : loadHookP st id = st := by
  simp [loadHookP, h]

theorem bootstrapTask_crash (st : PState) (id : String)
    (h : st.crash.isSome) : bootstrapTask st id = st := by
  simp [bootstrapTask, h]

theorem validateTask_crash (st : PState) (h : st.crash.isSome) :
    validateTask st = st := by
  simp [validateTask, h]

theorem guardSeries_crash (f : PState → String → PState)
    (hf : ∀ st id, st.crash.isSome → f st id = st)
    (st : PState) (id : String) (h : st.crash.isSome) :
    guardSeries f st id = st := by
  by_cases hs : st.seriesErr.isSome <;> simp [guardSeries, hs, hf st id h]

theorem runStage_crash (f : PState → String → PState)
    (hf : ∀ st id, st.crash.isSome → f st id = st) :
    (ids : List String) → (st : PState) → st.crash.isSome →
    runStage f st ids = st
  | [], st, _ => rfl
  | id :: rest, st, h => by
      rw [runStage, hf st id h, runStage_crash f hf rest st h]

theorem finalize_crash (st : PState) (h : st.crash.isSome) :
    finalize st = st := by
  simp [finalize, h]

/-- A well-behaved factory used in the concrete scenarios: no `configKey`
property, empty-object defaults, `configure` and `load` succeed. -/
def okFactory : Factory := ⟨none, ⟨DefVal.dobj JFields.nil, true, true⟩⟩

/-- The empty shared configuration. -/
def emptyConfig : JVal := JVal.obj JFields.nil

/-- C10: registering a bootstrap id with the literal string "false" is not
skipped by the bootstrap presence check (the string is truthy): the
moduleloader task runs, `prepareHook` deletes the id (line 27) and returns
without producing a Hook, then `applyDefaults` is invoked on the
now-undefined registry entry and the run crashes with a `TypeError` — the
caller's callback is never invoked, the trace shows no `prepared` event,
and the hook is not cleanly treated as disabled. -/
theorem c10_bootstrap_false_string_crash :
    (initializeHooksRun [("moduleloader", RegEntry.raw RawDef.disabledStr)]
      emptyConfig).crash = some Crash.typeError ∧
    (initializeHooksRun [("moduleloader", RegEntry.raw RawDef.disabledStr)]
      emptyConfig).trace = [TEvent.applyDefaultsCalled "moduleloader"] ∧
    (rlookup (initializeHooksRun
      [("moduleloader", RegEntry.raw RawDef.disabledStr)]
      emptyConfig).hooks "moduleloader").isNone = true ∧
    (initializeHooksRun [("moduleloader", RegEntry.raw RawDef.disabledStr)]
      emptyConfig).finalCb = [] := by
  decide

/-- C2 counterexample registry: `userconfig` registered with a valid
factory, `moduleloader` not registered. -/
def c2Reg : List (String × RegEntry) :=
  [("userconfig", RegEntry.raw (RawDef.factory okFactory))]

/-- Trace suffix after the configuration error is reported. -/
def afterConfigError : List TEvent → List TEvent
  | [] => []
  | TEvent.configErrorReported :: rest => rest
  | _ :: rest => afterConfigError rest

/-- C2 counterexample: the configuration error is delivered, but the claim
that no further per-hook processing takes place after the error is reported
is false — the userconfig task continues: `applyDefaults` is invoked on the
still-raw registry entry right after the error callback (and the run then
crashes with a `TypeError`). -/
theorem c2_counterexample :
    ¬ ((initializeHooksRun c2Reg emptyConfig).finalCb =
        [some invalidConfigMsg] ∧
       afterConfigError (initializeHooksRun c2Reg emptyConfig).trace = []) := by
  decide

theorem stagePrepare_crash (st : PState) (h : st.crash.isSome) :
    stagePrepare st = st :=
  runStage_crash _ (guardSeries_crash _ prepareHook_crash) _ st h

theorem stageDefaults_crash (st : PState) (h : st.crash.isSome) :
    stageDefaults st = st :=
  runStage_crash _ (guardSeries_crash _ applyDefaultsP_crash) _ st h

theorem stageConfigure_crash (st : PState) (h : st.crash.isSome) :
    stageConfigure st = st :=
  runStage_crash _
    (guardSeries_crash _ (fun s i hc => configureP_crash s i true hc)) _ st h

theorem stageLoad_crash (st : PState) (h : st.crash.isSome) :
    stageLoad st = st :=
  runStage_crash _ (guardSeries_crash _ loadHookP_crash) _ st h

theorem nsHead_userconfig : nsHead "userconfig" = "userconfig" := by decide

theorem nsHead_moduleloader : nsHead "moduleloader" = "moduleloader" := by
  decide

theorem nsHead_userhooks : nsHead "userhooks" = "userhooks" := by decide

/-- C2 (amended): with `userconfig` registered as a factory and
`moduleloader` absent (or disabled), the run reports the
invalid-configuration error to the caller exactly once and no hook's load
is ever started; however, the userconfig task is not stopped by the error:
it continues into `applyDefaults` on the still-raw registry entry and the
run crashes with a `TypeError` instead of halting cleanly. -/
theorem c2_invalid_config_amended (reg : List (String × RegEntry))
    (config : JVal) (f : Factory)
    (hml : entryTruthy (rlookup reg "moduleloader") = false)
    (huc : rlookup reg "userconfig" = some (RegEntry.raw (RawDef.factory f))) :
    (initializeHooksRun reg config).finalCb = [some invalidConfigMsg] ∧
    (initializeHooksRun reg config).trace =
      [TEvent.configErrorReported, TEvent.applyDefaultsCalled "userconfig"] ∧
    (initializeHooksRun reg config).crash = some Crash.typeError := by
  have h0 : entryTruthy (rlookup reg "userconfig") = true := by
    rw [huc]
    rfl
  have htask1 : bootstrapTask ⟨reg, config, [], [], none, none⟩
      "moduleloader" = ⟨reg, config, [], [], none, none⟩ := by
    simp [bootstrapTask, hml]
  have hfac : entryTruthy (some (RegEntry.raw (RawDef.factory f))) = true :=
    rfl
  have hprep : prepareHook ⟨reg, config, [], [], none, none⟩ "userconfig" =
      ⟨reg, config, [TEvent.configErrorReported], [some invalidConfigMsg],
        none, none⟩ := by
    simp [prepareHook, nsHead_userconfig, huc, hml, hfac, isFalseEntry,
      isFalseStrEntry]
  have happ : applyDefaultsP ⟨reg, config, [TEvent.configErrorReported],
      [some invalidConfigMsg], none, none⟩ "userconfig" =
      ⟨reg, config,
        [TEvent.configErrorReported, TEvent.applyDefaultsCalled "userconfig"],
        [some invalidConfigMsg], none, some Crash.typeError⟩ := by
    simp [applyDefaultsP, huc]
  have htask2 : bootstrapTask ⟨reg, config, [], [], none, none⟩
      "userconfig" =
      ⟨reg, config,
        [TEvent.configErrorReported, TEvent.applyDefaultsCalled "userconfig"],
        [some invalidConfigMsg], none, some Crash.typeError⟩ := by
    rw [bootstrapTask]
    simp only [Option.isSome_none, Bool.or_self, Bool.false_eq_true,
      if_false, h0, Bool.not_true, if_neg]
    rw [hprep, happ]
    simp [configureP_crash, loadHookP_crash]
  rw [initializeHooksRun, htask1, htask2]
  simp [bootstrapTask_crash, validateTask_crash, stagePrepare_crash,
    stageDefaults_crash, stageConfigure_crash, stageLoad_crash,
    finalize_crash]

/-- C2 witness: the amended statement at the concrete registry holding only
a well-behaved userconfig factory. -/
theorem c2_invalid_config_amended_witness :
    (initializeHooksRun c2Reg emptyConfig).finalCb =
      [some invalidConfigMsg] ∧
    (initializeHooksRun c2Reg emptyConfig).trace =
      [TEvent.configErrorReported, TEvent.applyDefaultsCalled "userconfig"] ∧
    (initializeHooksRun c2Reg emptyConfig).crash = some Crash.typeError :=
  c2_invalid_config_amended c2Reg emptyConfig okFactory rfl rfl

theorem rupdate_rupdate_self : (m : List (String × RegEntry)) →
    (k : String) → (v w : RegEntry) →
    rupdate (rupdate m k v) k w = rupdate m k w
  | [], k, v, w => by simp [rupdate]
  | (k0, u) :: rest, k, v, w => by
      by_cases h : k0 = k <;>
        simp [rupdate, h, rupdate_rupdate_self rest k v w]

/-- `applyDefaults` does not throw on a hook whose `defaults` member is
present (an object or a function). -/
theorem applyDefaultsH_ok (ck : String) (dv : DefVal) (config : JVal)
    (h : dv ≠ DefVal.dnone) :
    ∃ cfg dv2, applyDefaultsH ck dv config = Except.ok (cfg, dv2) := by
  cases dv with
  | dnone => exact absurd rfl h
  | dfn f => exact ⟨_, _, rfl⟩
  | dobj o =>
      by_cases hg : jTruthy (o.lookup "__configKey__") = true ∧ ck ≠ ""
      · exact ⟨defaultsDeep config (JVal.obj (rewriteCK ck o)),
          DefVal.dobj (rewriteCK ck o), by simp [applyDefaultsH, hg]⟩
      · exact ⟨defaultsDeep config (JVal.obj o), DefVal.dobj o,
          by simp [applyDefaultsH, hg]⟩

/-- The trace footprint of one successful bootstrap task. -/
def bootstrapEvents (id : String) : List TEvent :=
  [TEvent.prepared id, TEvent.applyDefaultsCalled id,
   TEvent.defaultsApplied id, TEvent.configured id, TEvent.loadStarted id,
   TEvent.loadedEvt id, TEvent.loadFinished id]

/-- A bootstrap task on a registered factory whose descriptor is
well-behaved runs the full prepare/defaults/configure/load sequence: the
hook is instantiated, the trace grows by exactly the seven bootstrap
events, and no error or crash occurs. -/
theorem bootstrapTask_ok (hooks : List (String × RegEntry))
    (config : JVal) (trace : List TEvent) (finalCb : List (Option String))
    (id : String) (f : Factory)
    (hns : nsHead id = id)
    (hid : rlookup hooks id = some (RegEntry.raw (RawDef.factory f)))
    (hvalid : (entryTruthy (rlookup hooks "userconfig") &&
        !entryTruthy (rlookup hooks "moduleloader")) = false)
    (hnd : f.descriptor.defaults ≠ DefVal.dnone)
    (hcfg : f.descriptor.configureOk = true)
    (hld : f.descriptor.loadOk = true) :
    ∃ (hEnt : HookEnt) (cfg : JVal),
      bootstrapTask ⟨hooks, config, trace, finalCb, none, none⟩ id =
        ⟨rupdate hooks id (RegEntry.hook hEnt), cfg,
          trace ++ bootstrapEvents id, finalCb, none, none⟩ := by
  have hT : entryTruthy (rlookup hooks id) = true := by rw [hid]; rfl
  have hprep : prepareHook ⟨hooks, config, trace, finalCb, none, none⟩ id =
      ⟨rupdate hooks id (RegEntry.hook (mkHookEnt id f)), config,
        trace ++ [TEvent.prepared id], finalCb, none, none⟩ := by
    simp [prepareHook, hid, hns, hvalid, isFalseEntry, isFalseStrEntry]
  obtain ⟨cfg1, dv1, happOk⟩ :=
    applyDefaultsH_ok (mkHookEnt id f).configKey (mkHookEnt id f).defaults
      config (by exact hnd)
  have happ : applyDefaultsP (prepareHook
      ⟨hooks, config, trace, finalCb, none, none⟩ id) id =
      ⟨rupdate hooks id (RegEntry.hook
          ⟨(mkHookEnt id f).identity, (mkHookEnt id f).configKey, dv1,
            (mkHookEnt id f).configureOk, (mkHookEnt id f).loadOk⟩),
        cfg1,
        trace ++ [TEvent.prepared id, TEvent.applyDefaultsCalled id,
          TEvent.defaultsApplied id], finalCb, none, none⟩ := by
    rw [hprep]
    simp [applyDefaultsP, rlookup_rupdate_self, happOk,
      rupdate_rupdate_self]
  have hcfg2 : (⟨(mkHookEnt id f).identity, (mkHookEnt id f).configKey, dv1,
      (mkHookEnt id f).configureOk, (mkHookEnt id f).loadOk⟩ :
        HookEnt).configureOk = true := hcfg
  have hld2 : (⟨(mkHookEnt id f).identity, (mkHookEnt id f).configKey, dv1,
      (mkHookEnt id f).configureOk, (mkHookEnt id f).loadOk⟩ :
        HookEnt).loadOk = true := hld
  refine ⟨⟨(mkHookEnt id f).identity, (mkHookEnt id f).configKey, dv1,
      (mkHookEnt id f).configureOk, (mkHookEnt id f).loadOk⟩, cfg1, ?_⟩
  rw [bootstrapTask]
  simp only [Option.isSome_none, Bool.or_self, Bool.false_eq_true,
    if_false, hT, Bool.not_true, if_neg]
  rw [happ]
  simp [configureP, loadHookP, rlookup_rupdate_self, hcfg2, hld2,
    mkHookEnt, hcfg, hld, bootstrapEvents]

/-! ### Trace extension lemmas -/

theorem prepareHook_traceP (st : PState) (id : String) :
    st.trace <+: (prepareHook st id).trace := by
  simp only [prepareHook]
  repeat' split
  all_goals simp

theorem applyDefaultsP_traceP (st : PState) (id : String) :
    st.trace <+: (applyDefaultsP st id).trace := by
  simp only [applyDefaultsP]
  repeat' split
  all_goals simp

theorem configureP_traceP (st : PState) (id : String) (c : Bool) :
    st.trace <+: (configureP st id c).trace := by
  simp only [configureP]
  repeat' split
  all_goals simp

theorem loadHookP_traceP (st : PState) (id : String) :
    st.trace <+: (loadHookP st id).trace := by
  simp only [loadHookP]
  repeat' split
  all_goals simp

theorem guardSeries_traceP (f : PState → String → PState)
    (hf : ∀ st id, st.trace <+: (f st id).trace) (st : PState)
    (id : String) : st.trace <+: (guardSeries f st id).trace := by
  by_cases hs : st.seriesErr.isSome <;> simp [guardSeries, hs, hf st id]

theorem runStage_traceP (f : PState → String → PState)
    (hf : ∀ st id, st.trace <+: (f st id).trace) :
    (ids : List String) → (st : PState) →
    st.trace <+: (runStage f st ids).trace
  | [], _ => List.prefix_refl _
  | id :: rest, st =>
      List.IsPrefix.trans (hf st id) (runStage_traceP f hf rest (f st id))

theorem validateTask_traceP (st : PState) :
    st.trace <+: (validateTask st).trace := by
  simp only [validateTask]
  repeat' split
  all_goals simp

theorem afterBootstrap_traceP (st : PState) :
    st.trace <+: (finalize (stageLoad (stageConfigure (stageDefaults
      (stagePrepare (validateTask st)))))).trace := by
  have h4 := validateTask_traceP st
  have h5 : (validateTask st).trace <+:
      (stagePrepare (validateTask st)).trace :=
    runStage_traceP _ (guardSeries_traceP _ prepareHook_traceP) _ _
  have h6 : (stagePrepare (validateTask st)).trace <+:
      (stageDefaults (stagePrepare (validateTask st))).trace :=
    runStage_traceP _ (guardSeries_traceP _ applyDefaultsP_traceP) _ _
  have h7 : (stageDefaults (stagePrepare (validateTask st))).trace <+:
      (stageConfigure (stageDefaults (stagePrepare (validateTask st)))).trace :=
    runStage_traceP _
      (guardSeries_traceP _ (fun s i => configureP_traceP s i true)) _ _
  have h8 : (stageConfigure (stageDefaults (stagePrepare
      (validateTask st)))).trace <+:
      (stageLoad (stageConfigure (stageDefaults (stagePrepare
        (validateTask st))))).trace :=
    runStage_traceP _ (guardSeries_traceP _ loadHookP_traceP) _ _
  have h9 : (stageLoad (stageConfigure (stageDefaults (stagePrepare
      (validateTask st))))).trace <+: (finalize (stageLoad (stageConfigure
      (stageDefaults (stagePrepare (validateTask st)))))).trace := by
    simp only [finalize]
    split
    all_goals simp
  exact (((((h4.trans h5).trans h6).trans h7).trans h8).trans h9)

/-- C7 trace skeleton: registry with all three bootstrap factories. -/
def c7Reg : List (String × RegEntry) :=
  [("moduleloader", RegEntry.raw (RawDef.factory okFactory)),
   ("userconfig", RegEntry.raw (RawDef.factory okFactory)),
   ("userhooks", RegEntry.raw (RawDef.factory okFactory))]

/-- C7: when `moduleloader`, `userconfig` and `userhooks` are all
registered as well-behaved factories, the run's trace begins with exactly
the full prepare/defaults/configure/load sequence of `moduleloader`, then
the full sequence of `userconfig`, then the full sequence of `userhooks`,
before any other event: each bootstrap hook's load fully resolves before
the next bootstrap hook or any other hook is touched.  Moreover a bootstrap
id absent from the registry is skipped entirely: with only `userhooks`
registered the whole trace is its sequence alone. -/
theorem c7_bootstrap_order (reg : List (String × RegEntry)) (config : JVal)
    (f1 f2 f3 : Factory)
    (h1 : rlookup reg "moduleloader" =
      some (RegEntry.raw (RawDef.factory f1)))
    (h2 : rlookup reg "userconfig" = some (RegEntry.raw (RawDef.factory f2)))
    (h3 : rlookup reg "userhooks" = some (RegEntry.raw (RawDef.factory f3)))
    (hnd1 : f1.descriptor.defaults ≠ DefVal.dnone)
    (hnd2 : f2.descriptor.defaults ≠ DefVal.dnone)
    (hnd3 : f3.descriptor.defaults ≠ DefVal.dnone)
    (hcfg1 : f1.descriptor.configureOk = true)
    (hcfg2 : f2.descriptor.configureOk = true)
    (hcfg3 : f3.descriptor.configureOk = true)
    (hld1 : f1.descriptor.loadOk = true)
    (hld2 : f2.descriptor.loadOk = true)
    (hld3 : f3.descriptor.loadOk = true) :
    (∃ rest, (initializeHooksRun reg config).trace =
      bootstrapEvents "moduleloader" ++ bootstrapEvents "userconfig" ++
        bootstrapEvents "userhooks" ++ rest) ∧
    (initializeHooksRun
      [("userhooks", RegEntry.raw (RawDef.factory okFactory))]
      emptyConfig).trace = bootstrapEvents "userhooks" := by
  constructor
  · have hmlT : entryTruthy (rlookup reg "moduleloader") = true := by
      rw [h1]; rfl
    obtain ⟨e1, cfg1, hb1⟩ := bootstrapTask_ok reg config [] []
      "moduleloader" f1 nsHead_moduleloader h1 (by simp [hmlT])
      hnd1 hcfg1 hld1
    obtain ⟨e2, cfg2, hb2⟩ := bootstrapTask_ok
      (rupdate reg "moduleloader" (RegEntry.hook e1)) cfg1
      ([] ++ bootstrapEvents "moduleloader") [] "userconfig" f2
      nsHead_userconfig
      (by rw [rlookup_rupdate_ne reg "moduleloader" "userconfig"
            (RegEntry.hook e1) (by decide), h2])
      (by simp [rlookup_rupdate_ne reg "moduleloader" "userconfig"
            (RegEntry.hook e1) (by decide), rlookup_rupdate_self, h2,
            entryTruthy])
      hnd2 hcfg2 hld2
    obtain ⟨e3, cfg3, hb3⟩ := bootstrapTask_ok
      (rupdate (rupdate reg "moduleloader" (RegEntry.hook e1)) "userconfig"
        (RegEntry.hook e2)) cfg2
      (([] ++ bootstrapEvents "moduleloader") ++ bootstrapEvents
        "userconfig") [] "userhooks" f3 nsHead_userhooks
      (by rw [rlookup_rupdate_ne _ "userconfig" "userhooks" _ (by decide),
            rlookup_rupdate_ne _ "moduleloader" "userhooks" _ (by decide),
            h3])
      (by simp [rlookup_rupdate_ne _ "userconfig" "moduleloader"
            (RegEntry.hook e2) (by decide), rlookup_rupdate_self,
            entryTruthy])
      hnd3 hcfg3 hld3
    rw [initializeHooksRun, hb1, hb2, hb3]
    obtain ⟨rest, hrest⟩ := afterBootstrap_traceP
      ⟨rupdate (rupdate (rupdate reg "moduleloader" (RegEntry.hook e1))
          "userconfig" (RegEntry.hook e2)) "userhooks" (RegEntry.hook e3),
        cfg3,
        ((([] ++ bootstrapEvents "moduleloader") ++ bootstrapEvents
          "userconfig") ++ bootstrapEvents "userhooks"), [], none, none⟩
    refine ⟨rest, ?_⟩
    rw [← hrest]
    simp
  · decide

/-- C7 witness: the ordering statement applied to the concrete registry
with all three bootstrap factories. -/
theorem c7_bootstrap_order_witness :
    ∃ rest, (initializeHooksRun c7Reg emptyConfig).trace =
      bootstrapEvents "moduleloader" ++ bootstrapEvents "userconfig" ++
        bootstrapEvents "userhooks" ++ rest :=
  (c7_bootstrap_order c7Reg emptyConfig okFactory okFactory okFactory
    rfl rfl rfl (by intro h; cases h) (by intro h; cases h)
    (by intro h; cases h) rfl rfl rfl rfl rfl rfl).1

/-- C4 counterexample registry: the namespace id `a` disabled with `false`,
and `a.b` registered with a valid factory, in JS object insertion order. -/
def c4Reg : List (String × RegEntry) :=
  [("a", RegEntry.raw RawDef.disabled),
   ("a.b", RegEntry.raw (RawDef.factory okFactory))]

/-- C4 counterexample: the claim says `a.b` is deleted (its prefix `a` is
`false`) and never reaches Prepared.  But the prepare stage processes `a`
first and deletes it, so when `a.b` is prepared the prefix lookup no longer
finds `false`: `a.b` survives, is instantiated as a Hook, and goes through
every later stage. -/
theorem c4_counterexample :
    ¬ ((rlookup (initializeHooksRun c4Reg emptyConfig).hooks "a.b").isNone =
        true ∧
       TEvent.prepared "a.b" ∉ (initializeHooksRun c4Reg emptyConfig).trace) := by
  decide

/-! ### Invariants for the disabled-id theorem (C4) -/

/-- The entry disables the id or is gone. -/
def isFalseOrNone (e : Option RegEntry) : Bool :=
  isFalseEntry e || isFalseStrEntry e || e.isNone

/-- Events attributed to the hook id `x`. -/
def touches (x : String) : TEvent → Bool
  | TEvent.prepared i => i == x
  | TEvent.applyDefaultsCalled i => i == x
  | TEvent.defaultsApplied i => i == x
  | TEvent.configured i => i == x
  | TEvent.loadStarted i => i == x
  | TEvent.loadedEvt i => i == x
  | TEvent.errorEvt i => i == x
  | TEvent.loadFinished i => i == x
  | TEvent.configErrorReported => false
  | TEvent.controllersRemoved => false

/-- No event of the list is attributed to `x`. -/
def cleanOf (x : String) (l : List TEvent) : Bool :=
  l.all (fun e => !touches x e)

theorem cleanOf_append (x : String) (a b : List TEvent) :
    cleanOf x (a ++ b) = (cleanOf x a && cleanOf x b) := by
  simp [cleanOf, List.all_append]

theorem prepareHook_seriesErr (st : PState) (y : String) :
    (prepareHook st y).seriesErr = st.seriesErr := by
  simp only [prepareHook]
  repeat' split
  all_goals rfl

theorem prepareHook_pres (st : PState) (y x : String) (hxy : x ≠ y) :
    rlookup (prepareHook st y).hooks x = rlookup st.hooks x := by
  simp only [prepareHook]
  repeat' split
  all_goals simp [rlookup_rdelete_ne _ _ _ hxy, rlookup_rupdate_ne _ _ _ _ hxy]

theorem prepareHook_none_pres (st : PState) (y x : String)
    (h : rlookup st.hooks x = none) :
    rlookup (prepareHook st y).hooks x = none := by
  by_cases hxy : x = y
  · subst hxy
    simp only [prepareHook]
    repeat' split
    all_goals simp_all [rlookup_rdelete_self]
  · rw [prepareHook_pres st y x hxy, h]

theorem prepareHook_self_del (st : PState) (x : String)
    (hinv : isFalseOrNone (rlookup st.hooks x) = true)
    (hcr : st.crash = none) :
    rlookup (prepareHook st x).hooks x = none := by
  by_cases hn : rlookup st.hooks x = none
  · exact prepareHook_none_pres st x x hn
  · have hfal : (isFalseEntry (rlookup st.hooks x) ||
        isFalseStrEntry (rlookup st.hooks x)) = true := by
      rcases Option.ne_none_iff_exists.1 hn with ⟨v, hv⟩
      rw [← hv]
      rw [← hv] at hinv
      simpa [isFalseOrNone] using hinv
    rw [prepareHook]
    simp only [hcr, Option.isSome_none, Bool.false_eq_true, if_false]
    rcases Bool.or_eq_true_iff.1 hfal with hf | hf <;>
      simp [hf, rlookup_rdelete_self]

theorem prepareHook_entry_inv (st : PState) (y x : String)
    (hinv : isFalseOrNone (rlookup st.hooks x) = true) :
    isFalseOrNone (rlookup (prepareHook st y).hooks x) = true := by
  by_cases hxy : x = y
  · subst hxy
    cases hcr : st.crash with
    | none =>
        rw [prepareHook_self_del st x hinv hcr]
        rfl
    | some c =>
        rw [prepareHook_crash st x (by rw [hcr]; rfl)]
        exact hinv
  · rw [prepareHook_pres st y x hxy]
    exact hinv

theorem prepareHook_trace_clean (st : PState) (y x : String)
    (h : y ≠ x ∨ isFalseOrNone (rlookup st.hooks x) = true)
    (htr : cleanOf x st.trace = true) :
    cleanOf x (prepareHook st y).trace = true := by
  by_cases hxy : y = x
  · have hinv : isFalseOrNone (rlookup st.hooks x) = true :=
      h.resolve_left (by simp [hxy])
    subst hxy
    by_cases hn : rlookup st.hooks y = none
    · simp only [prepareHook]
      repeat' split
      all_goals simp_all [cleanOf_append, cleanOf, touches]
    · have hfal : (isFalseEntry (rlookup st.hooks y) ||
          isFalseStrEntry (rlookup st.hooks y)) = true := by
        rcases Option.ne_none_iff_exists.1 hn with ⟨v, hv⟩
        rw [← hv]
        rw [← hv] at hinv
        simpa [isFalseOrNone] using hinv
      by_cases hcr : st.crash.isSome
      · rw [prepareHook_crash st y hcr]
        exact htr
      · rw [prepareHook]
        simp only [hcr, Bool.false_eq_true, if_false]
        rcases Bool.or_eq_true_iff.1 hfal with hf | hf <;> simp [hf, htr]
  · simp only [prepareHook]
    repeat' split
    all_goals simp_all [cleanOf_append, cleanOf, touches, hxy]

theorem applyDefaultsP_pres (st : PState) (y x : String) (hxy : x ≠ y) :
    rlookup (applyDefaultsP st y).hooks x = rlookup st.hooks x := by
  simp only [applyDefaultsP]
  repeat' split
  all_goals simp [rlookup_rupdate_ne _ _ _ _ hxy]

theorem applyDefaultsP_trace_clean (st : PState) (y x : String)
    (hxy : y ≠ x) (htr : cleanOf x st.trace = true) :
    cleanOf x (applyDefaultsP st y).trace = true := by
  simp only [applyDefaultsP]
  repeat' split
  all_goals simp_all [cleanOf_append, cleanOf, touches, hxy]

theorem configureP_hooks (st : PState) (y : String) (c : Bool) :
    (configureP st y c).hooks = st.hooks := by
  simp only [configureP]
  repeat' split
  all_goals rfl

theorem configureP_trace_clean (st : PState) (y x : String) (c : Bool)
    (hxy : y ≠ x) (htr : cleanOf x st.trace = true) :
    cleanOf x (configureP st y c).trace = true := by
  simp only [configureP]
  repeat' split
  all_goals simp_all [cleanOf_append, cleanOf, touches, hxy]

theorem loadHookP_hooks (st : PState) (y : String) :
    (loadHookP st y).hooks = st.hooks := by
  simp only [loadHookP]
  repeat' split
  all_goals rfl

theorem loadHookP_trace_clean (st : PState) (y x : String)
    (hxy : y ≠ x) (htr : cleanOf x st.trace = true) :
    cleanOf x (loadHookP st y).trace = true := by
  simp only [loadHookP]
  repeat' split
  all_goals simp_all [cleanOf_append, cleanOf, touches, hxy]

theorem validateTask_pres (st : PState) (x : String)
    (hx : x ≠ "controllers") :
    rlookup (validateTask st).hooks x = rlookup st.hooks x := by
  simp only [validateTask]
  repeat' split
  all_goals simp [rlookup_rdelete_ne _ _ _ hx]

theorem validateTask_trace_clean (st : PState) (x : String)
    (htr : cleanOf x st.trace = true) :
    cleanOf x (validateTask st).trace = true := by
  simp only [validateTask]
  repeat' split
  all_goals simp_all [cleanOf_append, cleanOf, touches]

theorem validateTask_seriesErr (st : PState) :
    (validateTask st).seriesErr = st.seriesErr := by
  simp only [validateTask]
  repeat' split
  all_goals rfl

theorem applyDefaultsP_seriesErr (st : PState) (y : String) :
    (applyDefaultsP st y).seriesErr = st.seriesErr := by
  simp only [applyDefaultsP]
  repeat' split
  all_goals rfl

/-- A bootstrap task for an id other than `x` does not move `x`'s registry
entry. -/
theorem bootstrapTask_pres (st : PState) (y x : String) (hxy : x ≠ y) :
    rlookup (bootstrapTask st y).hooks x = rlookup st.hooks x := by
  rw [bootstrapTask]
  repeat' split
  · rfl
  · rfl
  · rw [loadHookP_hooks, configureP_hooks,
      applyDefaultsP_pres _ _ _ hxy, prepareHook_pres _ _ _ hxy]

/-- A bootstrap task for an id other than `x` adds no events of `x`. -/
theorem bootstrapTask_trace_clean (st : PState) (y x : String)
    (hxy : y ≠ x) (htr : cleanOf x st.trace = true) :
    cleanOf x (bootstrapTask st y).trace = true := by
  rw [bootstrapTask]
  repeat' split
  · exact htr
  · exact htr
  · exact loadHookP_trace_clean _ _ _ hxy
      (configureP_trace_clean _ _ _ _ hxy
        (applyDefaultsP_trace_clean _ _ _ hxy
          (prepareHook_trace_clean st y x (Or.inl hxy) htr)))

theorem guardSeries_seriesErr_some (f : PState → String → PState)
    (st : PState) (id : String) (h : st.seriesErr.isSome) :
    guardSeries f st id = st := by
  simp [guardSeries, h]

theorem runStage_seriesErr_some (f : PState → String → PState) :
    (ids : List String) → (st : PState) → st.seriesErr.isSome →
    runStage (guardSeries f) st ids = st
  | [], st, _ => rfl
  | id :: rest, st, h => by
      rw [runStage, guardSeries_seriesErr_some f st id h,
        runStage_seriesErr_some f rest st h]

theorem validateTask_seriesErr_some (st : PState)
    (h : st.seriesErr.isSome) : validateTask st = st := by
  simp [validateTask, h]

theorem finalize_crashEq (st : PState) : (finalize st).crash = st.crash := by
  simp only [finalize]
  split
  · rfl
  · rfl

theorem finalize_hooks (st : PState) : (finalize st).hooks = st.hooks := by
  simp only [finalize]
  split
  · rfl
  · rfl

theorem finalize_trace (st : PState) : (finalize st).trace = st.trace := by
  simp only [finalize]
  split
  · rfl
  · rfl

/-- Entry `x`, once gone, stays gone through the prepare stage. -/
theorem stagePrep_none (x : String) : (ids : List String) → (st : PState) →
    rlookup st.hooks x = none →
    rlookup (runStage (guardSeries prepareHook) st ids).hooks x = none
  | [], st, h => h
  | y :: rest, st, h => by
      rw [runStage]
      apply stagePrep_none x rest
      by_cases hs : st.seriesErr.isSome
      · rw [guardSeries_seriesErr_some _ _ _ hs]
        exact h
      · show rlookup (if st.seriesErr.isSome = true then st
          else prepareHook st y).hooks x = none
        simp only [hs, Bool.false_eq_true, if_false]
        exact prepareHook_none_pres st y x h

/-- Main invariant of the prepare stage for a disabled id `x`: the series
error stays absent, `x`'s entry stays disabled-or-gone, no `x` events
appear, and if `x` is among the stage ids and the stage does not crash,
`x`'s entry is gone afterwards. -/
theorem stagePrep_inv (x : String) : (ids : List String) → (st : PState) →
    st.seriesErr = none →
    isFalseOrNone (rlookup st.hooks x) = true →
    cleanOf x st.trace = true →
    (runStage (guardSeries prepareHook) st ids).seriesErr = none ∧
    isFalseOrNone
      (rlookup (runStage (guardSeries prepareHook) st ids).hooks x) = true ∧
    cleanOf x (runStage (guardSeries prepareHook) st ids).trace = true ∧
    (x ∈ ids → (runStage (guardSeries prepareHook) st ids).crash = none →
      rlookup (runStage (guardSeries prepareHook) st ids).hooks x = none)
  | [], st, hse, hinv, htr =>
      ⟨hse, hinv, htr, fun hmem _ => absurd hmem (by simp)⟩
  | y :: rest, st, hse, hinv, htr => by
      have hguard : guardSeries prepareHook st y = prepareHook st y := by
        simp [guardSeries, hse]
      have hse' : (prepareHook st y).seriesErr = none := by
        rw [prepareHook_seriesErr]
        exact hse
      have hinv' := prepareHook_entry_inv st y x hinv
      have htr' := prepareHook_trace_clean st y x
        (by
          rcases eq_or_ne y x with h | h
          · exact Or.inr hinv
          · exact Or.inl h) htr
      have IH := stagePrep_inv x rest (prepareHook st y) hse' hinv' htr'
      rw [runStage, hguard]
      refine ⟨IH.1, IH.2.1, IH.2.2.1, ?_⟩
      intro hmem hcr
      rcases List.mem_cons.1 hmem with hx | hx
      · by_cases hstcr : st.crash = none
        · subst hx
          exact stagePrep_none x rest (prepareHook st x)
            (prepareHook_self_del st x hinv hstcr)
        · have hcs : st.crash.isSome := by
            cases hc : st.crash with
            | none => exact absurd hc hstcr
            | some c => rfl
          rw [prepareHook_crash st y hcs] at hcr ⊢
          rw [runStage_crash _ (guardSeries_crash _ prepareHook_crash)
            rest st hcs] at hcr
          exact absurd hcr (by
            cases hc : st.crash with
            | none => exact absurd hc hstcr
            | some c => simp [hc])
      · exact IH.2.2.2 hx hcr

/-- Generic later-stage lemma: if the per-id function neither revives `x`'s
entry nor emits `x` events (for ids other than `x`), a stage over ids not
containing `x` preserves entry-absence and trace-cleanness. -/
theorem stageGeneric_inv (x : String) (f : PState → String → PState)
    (hp : ∀ st y, y ≠ x → rlookup st.hooks x = none →
      rlookup (f st y).hooks x = none)
    (ht : ∀ st y, y ≠ x → cleanOf x st.trace = true →
      cleanOf x (f st y).trace = true) :
    (ids : List String) → (st : PState) → (∀ y ∈ ids, y ≠ x) →
    rlookup st.hooks x = none → cleanOf x st.trace = true →
    rlookup (runStage (guardSeries f) st ids).hooks x = none ∧
    cleanOf x (runStage (guardSeries f) st ids).trace = true
  | [], st, _, hn, htr => ⟨hn, htr⟩
  | y :: rest, st, hids, hn, htr => by
      have hy : y ≠ x := hids y (by simp)
      have hrest : ∀ z ∈ rest, z ≠ x := fun z hz => hids z (by simp [hz])
      rw [runStage]
      by_cases hs : st.seriesErr.isSome
      · rw [guardSeries_seriesErr_some _ _ _ hs]
        exact stageGeneric_inv x f hp ht rest st hrest hn htr
      · have hguard : guardSeries f st y = f st y := by
          simp [guardSeries, hs]
        rw [hguard]
        exact stageGeneric_inv x f hp ht rest (f st y) hrest
          (hp st y hy hn) (ht st y hy htr)

theorem stagePrepare_seriesErr_some (st : PState)
    (h : st.seriesErr.isSome) : stagePrepare st = st :=
  runStage_seriesErr_some _ _ st h

theorem stageDefaults_seriesErr_some (st : PState)
    (h : st.seriesErr.isSome) : stageDefaults st = st :=
  runStage_seriesErr_some _ _ st h

theorem stageConfigure_seriesErr_some (st : PState)
    (h : st.seriesErr.isSome) : stageConfigure st = st :=
  runStage_seriesErr_some _ _ st h

theorem stageLoad_seriesErr_some (st : PState)
    (h : st.seriesErr.isSome) : stageLoad st = st :=
  runStage_seriesErr_some _ _ st h

/-- C4 (amended): `prepareHook` deletes an id whose namespace prefix is
bound to `false` at the time the id is prepared, without error (first
conjunct).  In a whole run that completes successfully, a non-bootstrap,
non-`controllers` id whose own definition is `false` or the string "false"
at registry creation is removed during the prepare stage, never reaches
Prepared, and no stage ever processes it (second conjunct).  The prefix
rule, however, only applies while the prefix entry is still `false`: if the
prefix id is prepared (and deleted) first, the namespaced id survives — see
the counterexample. -/
theorem c4_disable_amended :
    (∀ (st : PState) (id : String), st.crash = none →
        isFalseEntry (rlookup st.hooks (nsHead id)) = true →
        prepareHook st id = { st with hooks := rdelete st.hooks id }) ∧
    (∀ (reg : List (String × RegEntry)) (config : JVal) (x : String),
        (isFalseEntry (rlookup reg x) ||
          isFalseStrEntry (rlookup reg x)) = true →
        x ≠ "moduleloader" → x ≠ "userconfig" → x ≠ "userhooks" →
        x ≠ "controllers" →
        (initializeHooksRun reg config).crash = none →
        (initializeHooksRun reg config).finalCb = [none] →
        (rlookup (initializeHooksRun reg config).hooks x).isNone = true ∧
        cleanOf x (initializeHooksRun reg config).trace = true) := by
  constructor
  · intro st id hcr hpre
    simp [prepareHook, hcr, hpre]
  · intro reg config x hfal h1 h2 h3 h4 hcr hfc
    rw [initializeHooksRun] at hcr hfc ⊢
    set st0 : PState := ⟨reg, config, [], [], none, none⟩ with hst0
    set stA := bootstrapTask st0 "moduleloader" with hstA
    set stB := bootstrapTask stA "userconfig" with hstB
    set stC := bootstrapTask stB "userhooks" with hstC
    set stD := validateTask stC with hstD
    set stE := stagePrepare stD with hstE
    set stF := stageDefaults stE with hstF
    set stG := stageConfigure stF with hstG
    set stH := stageLoad stG with hstH
    have hcrH : stH.crash = none := by rw [← finalize_crashEq stH]; exact hcr
    have hcrG : stG.crash = none := by
      cases hc : stG.crash with
      | none => rfl
      | some c =>
          have hEq : stH = stG := by
            rw [hstH]
            exact stageLoad_crash stG (by rw [hc]; rfl)
          rw [hEq, hc] at hcrH
          cases hcrH
    have hcrF : stF.crash = none := by
      cases hc : stF.crash with
      | none => rfl
      | some c =>
          have hEq : stG = stF := by
            rw [hstG]
            exact stageConfigure_crash stF (by rw [hc]; rfl)
          rw [hEq, hc] at hcrG
          cases hcrG
    have hcrE : stE.crash = none := by
      cases hc : stE.crash with
      | none => rfl
      | some c =>
          have hEq : stF = stE := by
            rw [hstF]
            exact stageDefaults_crash stE (by rw [hc]; rfl)
          rw [hEq, hc] at hcrF
          cases hcrF
    have hfin : (finalize stH).finalCb = stH.finalCb ++ [stH.seriesErr] := by
      simp [finalize, hcrH]
    rw [hfin] at hfc
    have hseH : stH.seriesErr = none := by
      cases hfb : stH.finalCb with
      | nil =>
          rw [hfb] at hfc
          simpa using hfc
      | cons a l =>
          rw [hfb] at hfc
          simp at hfc
    have hseD : stD.seriesErr = none := by
      cases hs : stD.seriesErr with
      | none => rfl
      | some e =>
          have hsome : stD.seriesErr.isSome := by rw [hs]; rfl
          have hEq : stH = stD := by
            rw [hstH, hstG, hstF, hstE,
              stagePrepare_seriesErr_some stD hsome,
              stageDefaults_seriesErr_some stD hsome,
              stageConfigure_seriesErr_some stD hsome,
              stageLoad_seriesErr_some stD hsome]
          rw [hEq, hs] at hseH
          cases hseH
    have hentryD : rlookup stD.hooks x = rlookup reg x := by
      rw [hstD, validateTask_pres _ _ h4, hstC, bootstrapTask_pres _ _ _ h3,
        hstB, bootstrapTask_pres _ _ _ h2, hstA,
        bootstrapTask_pres _ _ _ h1]
    have htrD : cleanOf x stD.trace = true := by
      rw [hstD]
      exact validateTask_trace_clean _ _ (by
        rw [hstC]
        exact bootstrapTask_trace_clean _ _ _ (Ne.symm h3) (by
          rw [hstB]
          exact bootstrapTask_trace_clean _ _ _ (Ne.symm h2) (by
            rw [hstA]
            exact bootstrapTask_trace_clean _ _ _ (Ne.symm h1) rfl)))
    have hinvD : isFalseOrNone (rlookup stD.hooks x) = true := by
      rw [hentryD]
      rcases Bool.or_eq_true_iff.1 hfal with h | h <;>
        simp [isFalseOrNone, h]
    have hsomeReg : ∃ v, rlookup reg x = some v := by
      cases he : rlookup reg x with
      | none =>
          rw [he] at hfal
          simp [isFalseEntry, isFalseStrEntry] at hfal
      | some v => exact ⟨v, rfl⟩
    have hmem : x ∈ otherIds stD.hooks := by
      obtain ⟨v, hv⟩ := hsomeReg
      exact mem_otherIds _ _
        (key_of_rlookup_some _ _ v (by rw [hentryD, hv])) h2 h1 h3
    have hEfacts := stagePrep_inv x (otherIds stD.hooks) stD hseD hinvD htrD
    have hcrE' : (runStage (guardSeries prepareHook) stD
        (otherIds stD.hooks)).crash = none := by
      rw [hstE, stagePrepare] at hcrE
      exact hcrE
    have hE_none : rlookup stE.hooks x = none := by
      rw [hstE, stagePrepare]
      exact hEfacts.2.2.2 hmem hcrE'
    have hE_clean : cleanOf x stE.trace = true := by
      rw [hstE, stagePrepare]
      exact hEfacts.2.2.1
    have hnotmemE : ∀ y ∈ otherIds stE.hooks, y ≠ x := by
      intro y hy heq
      exact not_mem_otherIds _ _
        (rlookup_none_not_key _ _ hE_none) (heq ▸ hy)
    have hFfacts := stageGeneric_inv x applyDefaultsP
      (fun st y hy hn => by
        rw [applyDefaultsP_pres st y x (Ne.symm hy)]
        exact hn)
      (fun st y hy htr => applyDefaultsP_trace_clean st y x hy htr)
      (otherIds stE.hooks) stE hnotmemE hE_none hE_clean
    have hF_none : rlookup stF.hooks x = none := by
      rw [hstF, stageDefaults]
      exact hFfacts.1
    have hF_clean : cleanOf x stF.trace = true := by
      rw [hstF, stageDefaults]
      exact hFfacts.2
    have hnotmemF : ∀ y ∈ otherIds stF.hooks, y ≠ x := by
      intro y hy heq
      exact not_mem_otherIds _ _
        (rlookup_none_not_key _ _ hF_none) (heq ▸ hy)
    have hGfacts := stageGeneric_inv x (fun s i => configureP s i true)
      (fun st y hy hn => by
        show rlookup (configureP st y true).hooks x = none
        rw [configureP_hooks]
        exact hn)
      (fun st y hy htr => configureP_trace_clean st y x true hy htr)
      (otherIds stF.hooks) stF hnotmemF hF_none hF_clean
    have hG_none : rlookup stG.hooks x = none := by
      rw [hstG, stageConfigure]
      exact hGfacts.1
    have hG_clean : cleanOf x stG.trace = true := by
      rw [hstG, stageConfigure]
      exact hGfacts.2
    have hnotmemG : ∀ y ∈ otherIds stG.hooks, y ≠ x := by
      intro y hy heq
      exact not_mem_otherIds _ _
        (rlookup_none_not_key _ _ hG_none) (heq ▸ hy)
    have hHfacts := stageGeneric_inv x loadHookP
      (fun st y hy hn => by
        rw [loadHookP_hooks]
        exact hn)
      (fun st y hy htr => loadHookP_trace_clean st y x hy htr)
      (otherIds stG.hooks) stG hnotmemG hG_none hG_clean
    have hH_none : rlookup stH.hooks x = none := by
      rw [hstH, stageLoad]
      exact hHfacts.1
    have hH_clean : cleanOf x stH.trace = true := by
      rw [hstH, stageLoad]
      exact hHfacts.2
    constructor
    · rw [finalize_hooks stH, hH_none]
      rfl
    · rw [finalize_trace stH]
      exact hH_clean

/-- C4 witness registry: a disabled id `x` next to a well-behaved hook, so
the run completes successfully. -/
def c4WReg : List (String × RegEntry) :=
  [("x", RegEntry.raw RawDef.disabled),
   ("foo", RegEntry.raw (RawDef.factory okFactory))]

/-- C4 witness: the per-invocation prefix deletion at a concrete state, and
the whole-run removal of a disabled id in a concrete successful run. -/
theorem c4_disable_amended_witness :
    prepareHook ⟨[("a", RegEntry.raw RawDef.disabled),
      ("a.b", RegEntry.raw RawDef.disabledStr)], emptyConfig, [], [],
      none, none⟩ "a.b" =
      ⟨rdelete [("a", RegEntry.raw RawDef.disabled),
        ("a.b", RegEntry.raw RawDef.disabledStr)] "a.b", emptyConfig, [],
        [], none, none⟩ ∧
    ((rlookup (initializeHooksRun c4WReg emptyConfig).hooks "x").isNone =
      true ∧
     cleanOf "x" (initializeHooksRun c4WReg emptyConfig).trace = true) :=
  ⟨c4_disable_amended.1 _ "a.b" rfl (by decide),
   c4_disable_amended.2 c4WReg emptyConfig "x" (by decide) (by decide)
     (by decide) (by decide) (by decide) (by decide) (by decide)⟩

end LoadHooks
